import Mathlib

/-!
Verification of the gooseberry-tm terminal note keeper.

This development shallowly embeds the core of the repository:
the record codec (`src/entry.rs`), the input-box field form
(`src/utility/interactive.rs`) and the category tab state machine
(`src/app.rs`, with `src/gooseberry_app.rs` and `src/tabs.rs` being
near-identical earlier revisions of the same component; where the
revisions differ the embedding follows `src/app.rs`, the most complete
revision, and doc comments note the differences).

Rust `String` values are modelled as `List Char` (`Str`), so that the
string operations used by the code (`split`, `trim`, `parse`, `format!`)
become structurally recursive Lean functions amenable to proof.
Rust `u64` is modelled as `Nat` together with explicit `< 2 ^ 64`
bounds at the points where the code can overflow (`str::parse::<u64>`).
-/

namespace Gooseberry

/-- Rust `String` / `&str`, modelled as a list of characters. -/
abbrev Str := List Char

/-- The numeric value of a decimal digit character. -/
def charVal (c : Char) : Nat := c.toNat - 48

/-- Value of a digit string, most significant digit first
(the accumulator loop of integer parsing). -/
def digitsVal (cs : Str) : Nat := cs.foldl (fun a c => 10 * a + charVal c) 0

/-- Fuelled decimal rendering loop; the fuel is always sufficient because
the recursion divides by 10 each step. Mirrors the decimal `Display` of
Rust unsigned integers. -/
def natToCharsAux : Nat → Nat → Str → Str
  | 0, _, acc => acc
  | f + 1, n, acc =>
    if n < 10 then Char.ofNat (48 + n % 10) :: acc
    else natToCharsAux f (n / 10) (Char.ofNat (48 + n % 10) :: acc)

/-- Decimal rendering of a natural number, as Rust `ToString` for `u64`. -/
def natToChars (n : Nat) : Str := natToCharsAux (n + 1) n []

/-- One more than the largest `u64` value. -/
def u64Size : Nat := 18446744073709551616

/-- Rust `str::parse::<u64>`: an optional `+` sign followed by at least one
digit, with overflow (value not below `2 ^ 64`) rejected. -/
def parseU64 (s : Str) : Option Nat :=
  let t : Str := if s.head? = some '+' then s.tail else s
  if t ≠ [] ∧ t.all Char.isDigit ∧ digitsVal t < u64Size then some (digitsVal t)
  else none

/-- Rust `str::parse::<bool>`: exactly the strings `true` and `false`. -/
def parseBool (s : Str) : Option Bool :=
  if s = "true".data then some true
  else if s = "false".data then some false
  else none

/-- Rust `str::trim`: drop whitespace from both ends. -/
def rustTrim (s : Str) : Str :=
  ((s.dropWhile Char.isWhitespace).reverse.dropWhile Char.isWhitespace).reverse

/-- Rust `Vec::join` / chrono literal output: interleave a separator. -/
def joinSep (sep : Str) (xs : List Str) : Str := sep.intercalate xs

/-! ### The timestamp codec

`chrono`'s fixed format string `"%v %r"`, i.e. `%e-%b-%Y %I:%M:%S %p`
(space-padded day, dash, month abbreviation, dash, zero-padded year,
space, 12-hour clock time, space, meridiem). The embedding models a
`chrono::DateTime<Utc>` by its displayed calendar fields plus the
sub-second nanoseconds (which this format does not print). Calendar
validation on the parse side is simplified to per-field range checks
(day 1–31 regardless of month); every timestamp actually produced by the
program is calendar-valid, so the simplification is invisible on the
round trip. -/

/-- A `chrono::DateTime<Utc>` value, by calendar fields. -/
structure DateTimeUtc where
  year : Nat
  month : Nat
  day : Nat
  hour : Nat
  minute : Nat
  second : Nat
  nano : Nat
deriving DecidableEq, Repr

/-- Three-letter month abbreviation used by `%b` / `%v`. -/
def monthAbbrev : Nat → Str
  | 1 => "Jan".data
  | 2 => "Feb".data
  | 3 => "Mar".data
  | 4 => "Apr".data
  | 5 => "May".data
  | 6 => "Jun".data
  | 7 => "Jul".data
  | 8 => "Aug".data
  | 9 => "Sep".data
  | 10 => "Oct".data
  | 11 => "Nov".data
  | 12 => "Dec".data
  | _ => "???".data

/-- Zero-padded two-digit field (`%I`, `%M`, `%S`). -/
def pad2 (n : Nat) : Str := if n < 10 then '0' :: natToChars n else natToChars n

/-- Space-padded day of month (`%e`). -/
def spacePad2 (n : Nat) : Str := if n < 10 then ' ' :: natToChars n else natToChars n

/-- Zero-padded four-digit year (`%Y`, for years up to 9999). -/
def pad4 (n : Nat) : Str :=
  List.replicate (4 - (natToChars n).length) '0' ++ natToChars n

/-- Displayed hour on the 12-hour clock. -/
def hour12 (h : Nat) : Nat := if h % 12 = 0 then 12 else h % 12

/-- Meridiem marker of `%p`. -/
def meridiem (h : Nat) : Str := if h < 12 then "AM".data else "PM".data

/-- chrono `format("%v %r")` on a `DateTime<Utc>`. -/
def format_vr (d : DateTimeUtc) : Str :=
  spacePad2 d.day ++ '-' :: monthAbbrev d.month ++ '-' :: pad4 d.year
    ++ ' ' :: pad2 (hour12 d.hour) ++ ':' :: pad2 d.minute ++ ':' :: pad2 d.second
    ++ ' ' :: meridiem d.hour

/-- chrono numeric parsing first discards leading whitespace. -/
def skipWs (s : Str) : Str := s.dropWhile Char.isWhitespace

/-- Read up to `maxd` further digits into the accumulator. -/
def readNumAux : Nat → Str → Nat → Nat × Str
  | 0, s, acc => (acc, s)
  | _ + 1, [], acc => (acc, [])
  | m + 1, c :: rest, acc =>
    if c.isDigit then readNumAux m rest (10 * acc + charVal c) else (acc, c :: rest)

/-- Read a number of at most `maxd` digits (at least one digit required),
as chrono scans a numeric field. -/
def readNum (maxd : Nat) (s : Str) : Option (Nat × Str) :=
  match s with
  | c :: rest => if c.isDigit then some (readNumAux (maxd - 1) rest (charVal c)) else none
  | [] => none

/-- Expect one literal character. -/
def expectChar (c : Char) (s : Str) : Option Str :=
  match s with
  | x :: rest => if x = c then some rest else none
  | [] => none

/-- Case-insensitive month-abbreviation lookup used when parsing `%b`. -/
def monthFromAbbrev (a b c : Char) : Option Nat :=
  ((List.range 12).find? fun i =>
    decide ((monthAbbrev (i + 1)).map Char.toLower = [a.toLower, b.toLower, c.toLower])).map
    (· + 1)

/-- Case-insensitive meridiem parse (`%p`); returns `true` for PM. -/
def readMeridiem (s : Str) : Option (Bool × Str) :=
  match s with
  | x :: y :: rest =>
    if y.toLower = 'm' then
      if x.toLower = 'a' then some (false, rest)
      else if x.toLower = 'p' then some (true, rest)
      else none
    else none
  | _ => none

/-- chrono `NaiveDateTime::parse_from_str(s, "%v %r")`: parse the fixed
format and range-check the fields; all input must be consumed. -/
def parse_vr (s : Str) : Option DateTimeUtc := do
  let (day, s) ← readNum 2 (skipWs s)
  let s ← expectChar '-' s
  match s with
  | a :: b :: c :: s =>
    let m ← monthFromAbbrev a b c
    let s ← expectChar '-' s
    let (year, s) ← readNum 4 (skipWs s)
    let (h12, s) ← readNum 2 (skipWs s)
    let s ← expectChar ':' s
    let (minute, s) ← readNum 2 (skipWs s)
    let s ← expectChar ':' s
    let (second, s) ← readNum 2 (skipWs s)
    let (pm, s) ← readMeridiem (skipWs s)
    if s = [] ∧ 1 ≤ day ∧ day ≤ 31 ∧ 1 ≤ h12 ∧ h12 ≤ 12 ∧ minute ≤ 59 ∧ second ≤ 59 then
      some ⟨year, m, day, h12 % 12 + (if pm then 12 else 0), minute, second, 0⟩
    else none
  | _ => none

/-! ### Errors and fallible results

`errors.rs` defines the `Sorry` error enum; fallible functions return
`anyhow::Result`, which can also carry the standard-library and chrono
parse errors propagated with `?`. The embedding collects all of these in
`AppError`. Rust code can additionally panic (an `unwrap` of `None` or an
out-of-bounds index); `RustResult` makes that outcome explicit. -/

/-- The four entry categories. -/
inductive GooseberryEntryType
  | Task
  | Research
  | Journal
  | Event
deriving DecidableEq, Repr

/-- The error values of the program: the `Sorry` enum of `errors.rs`
(first six constructors, with `WrongEntryID` of the middle revision
being the `MissingEntryID` of the latest one) plus the `u64`, `bool`
and chrono parse errors that `?` propagates as `anyhow::Error`. -/
inductive AppError
  | UnknownEntryType (entry_type : Str)
  | MissingEntryID (entry_type : GooseberryEntryType) (entry_id : Nat)
  | MissingHeader
  | MissingHeaderElement (element : Str)
  | WrongEntryType (expected got : GooseberryEntryType)
  | OutOfCheeseError (message : Str)
  | IntParseError (s : Str)
  | BoolParseError (s : Str)
  | ChronoParseError (s : Str)
deriving DecidableEq, Repr

/-- Outcome of a fallible Rust computation: a value, an error carried by
`Result`, or a panic (which aborts the process and therefore carries
nothing). -/
inductive RustResult (α : Type) : Type
  | ok (a : α)
  | err (e : AppError)
  | panic
deriving DecidableEq, Repr

/-! ### Input boxes (`src/utility/interactive.rs`)

The multi-field form. The Rust code indexes `self.boxes[self.index]`
without bounds checks; every reachable state has 2–4 boxes and an
in-range index, and the embedding uses the no-op/default behaviour of
`listModify`/`getD` at the never-reached out-of-range cases. -/

/-- Replace the element at an index, leaving the list unchanged when the
index is out of range. -/
def listModify {α : Type} (l : List α) (i : Nat) (f : α → α) : List α :=
  match l, i with
  | [], _ => []
  | x :: xs, 0 => f x :: xs
  | x :: xs, n + 1 => x :: listModify xs n f

/-- One text input box (`InputBox`). -/
structure InputBox where
  title : Str
  is_writing : Bool
  content : Str
  markdown : Bool
  percent : Nat
  scroll : Nat
deriving DecidableEq, Repr

/-- `InputBox::new`: an empty inactive box. -/
def InputBox.new (title : Str) (markdown : Bool) (percent : Nat) : InputBox :=
  ⟨title, false, [], markdown, percent, 0⟩

/-- `InputBox::get_content`. -/
def InputBox.get_content (b : InputBox) : Str := b.content

/-- The field form (`InputBoxes`): the boxes and the focused index. -/
structure InputBoxes where
  boxes : List InputBox
  index : Nat
deriving DecidableEq, Repr

/-- `InputBoxes::len`. -/
def InputBoxes.len (ib : InputBoxes) : Nat := ib.boxes.length

/-- `InputBoxes::start_writing`: focus the first box, deactivate the
rest. -/
def InputBoxes.start_writing (ib : InputBoxes) : InputBoxes :=
  { boxes := listModify (ib.boxes.map fun b => { b with is_writing := false }) 0
      (fun b => { b with is_writing := true }),
    index := 0 }

/-- `InputBoxes::stop_writing`: reset the focus index and deactivate all
boxes; box contents are NOT touched. -/
def InputBoxes.stop_writing (ib : InputBoxes) : InputBoxes :=
  { boxes := ib.boxes.map fun b => { b with is_writing := false }, index := 0 }

/-- `InputBoxes::new`: store the boxes and immediately `start_writing`. -/
def InputBoxes.new (boxes : List InputBox) : InputBoxes :=
  InputBoxes.start_writing ⟨boxes, 0⟩

/-- `InputBoxes::replace_content` (the Rust code has no bounds check; all
call sites are in range). -/
def InputBoxes.replace_content (ib : InputBoxes) (i : Nat) (content : Str) : InputBoxes :=
  { ib with boxes := listModify ib.boxes i fun b => { b with content := content } }

/-- `InputBoxes::save`: return a clone of the boxes (with their current
contents), then clear every content and `stop_writing`. -/
def InputBoxes.save (ib : InputBoxes) : InputBoxes × List InputBox :=
  ({ boxes := ib.boxes.map fun b => { b with content := [], is_writing := false },
     index := 0 },
   ib.boxes)

/-- `InputBoxes::increment_box`: move focus forward, wrapping around. -/
def InputBoxes.increment_box (ib : InputBoxes) : InputBoxes :=
  let b1 := listModify ib.boxes ib.index fun b => { b with is_writing := false }
  let ni := (ib.index + 1) % ib.len
  { boxes := listModify b1 ni fun b => { b with is_writing := true }, index := ni }

/-- `InputBoxes::decrement_box`: move focus backward, wrapping around. -/
def InputBoxes.decrement_box (ib : InputBoxes) : InputBoxes :=
  let b1 := listModify ib.boxes ib.index fun b => { b with is_writing := false }
  let ni := if ib.index > 0 then ib.index - 1 else ib.len - 1
  { boxes := listModify b1 ni fun b => { b with is_writing := true }, index := ni }

/-- Keyboard events (`crossterm::KeyEvent`), restricted to the variants
the program matches on; `Other` stands for every remaining variant. -/
inductive KeyEvent
  | Char (c : Char)
  | Ctrl (c : Char)
  | Backspace
  | Up
  | Down
  | Left
  | Right
  | Esc
  | Other
deriving DecidableEq, Repr

/-- A default box used to read fields at an (unreachable) out-of-range
focus index. -/
def defaultBox : InputBox := InputBox.new [] false 0

/-- `InputBoxes::keypress`: returns the mutated form together with
`(Option snapshot-to-save, whether to stop writing)`.
Ctrl-s saves, Ctrl-n/Ctrl-b move focus, a plain newline in a
non-markdown box moves focus, Backspace pops a character, Up/Down
scroll the focused box, Esc stops writing without a snapshot. -/
def InputBoxes.keypress (ib : InputBoxes) (key : KeyEvent) :
    InputBoxes × Option (List InputBox) × Bool :=
  match key with
  | .Ctrl c =>
    if c = 's' then
      let (ib2, bs) := ib.save
      (ib2, some bs, true)
    else if c = 'n' then (ib.increment_box, none, false)
    else if c = 'b' then (ib.decrement_box, none, false)
    else (ib, none, false)
  | .Char c =>
    if ¬ (ib.boxes.getD ib.index defaultBox).markdown ∧ c = '\n' then
      (ib.increment_box, none, false)
    else
      ({ ib with boxes := listModify ib.boxes ib.index fun b =>
          { b with content := b.content ++ [c] } },
       none, false)
  | .Backspace =>
    ({ ib with boxes := listModify ib.boxes ib.index fun b =>
        { b with content := b.content.dropLast } },
     none, false)
  | .Up =>
    ({ ib with boxes := listModify ib.boxes ib.index fun b =>
        { b with scroll := b.scroll - 1 } },
     none, false)
  | .Down =>
    ({ ib with boxes := listModify ib.boxes ib.index fun b =>
        { b with scroll := b.scroll + 1 } },
     none, false)
  | .Esc => (ib.stop_writing, none, true)
  | _ => (ib, none, false)

/-! ### Entries and the record codec (`src/entry.rs`) -/

/-- The `Display` implementation for `GooseberryEntryType`. -/
def GooseberryEntryType.display : GooseberryEntryType → Str
  | .Task => "Task".data
  | .Research => "Research".data
  | .Journal => "Journal".data
  | .Event => "Event".data

/-- The `FromStr` implementation: trim, then match the four names. -/
def GooseberryEntryType.from_str (s : Str) : RustResult GooseberryEntryType :=
  if rustTrim s = "Task".data then .ok .Task
  else if rustTrim s = "Research".data then .ok .Research
  else if rustTrim s = "Journal".data then .ok .Journal
  else if rustTrim s = "Event".data then .ok .Event
  else .err (.UnknownEntryType s)

/-- The file name `{entry_type}_{id}.md` used by
`GooseberryEntryType::get_file`. -/
def GooseberryEntryType.file_name (ty : GooseberryEntryType) (id : Nat) : Str :=
  ty.display ++ '_' :: natToChars id ++ ".md".data

/-- `TaskEntry`. -/
structure TaskEntry where
  id : Nat
  task : Str
  description : Str
  datetime : DateTimeUtc
  done : Bool
  tags : List Str
deriving DecidableEq, Repr

/-- `JournalEntry`. -/
structure JournalEntry where
  id : Nat
  description : Str
  datetime : DateTimeUtc
  tags : List Str
deriving DecidableEq, Repr

/-- `ResearchEntry`. -/
structure ResearchEntry where
  id : Nat
  title : Str
  notes : Str
  datetime : DateTimeUtc
  tags : List Str
deriving DecidableEq, Repr

/-- `EventEntry`. -/
structure EventEntry where
  id : Nat
  title : Str
  people : List Str
  datetime : DateTimeUtc
  notes : Str
  tags : List Str
deriving DecidableEq, Repr

/-- The tagged union of the four entry kinds. -/
inductive GooseberryEntry
  | Task (e : TaskEntry)
  | Journal (e : JournalEntry)
  | Research (e : ResearchEntry)
  | Event (e : EventEntry)
deriving DecidableEq, Repr

/-- Trait accessor `id()`. -/
def GooseberryEntry.id : GooseberryEntry → Nat
  | .Task e => e.id
  | .Journal e => e.id
  | .Research e => e.id
  | .Event e => e.id

/-- Trait accessor `datetime()`. -/
def GooseberryEntry.datetime : GooseberryEntry → DateTimeUtc
  | .Task e => e.datetime
  | .Journal e => e.datetime
  | .Research e => e.datetime
  | .Event e => e.datetime

/-- Trait accessor `tags()`. -/
def GooseberryEntry.tags : GooseberryEntry → List Str
  | .Task e => e.tags
  | .Journal e => e.tags
  | .Research e => e.tags
  | .Event e => e.tags

/-- Trait accessor `entry_type()`. -/
def GooseberryEntry.entry_type : GooseberryEntry → GooseberryEntryType
  | .Task _ => .Task
  | .Journal _ => .Journal
  | .Research _ => .Research
  | .Event _ => .Event

/-- The header delimiter line (`utility::formatting::HEADER_MARK`). -/
def HEADER_MARK : Str := "---".data

/-- Rust `Display` for `bool`. -/
def boolToChars (b : Bool) : Str := if b then "true".data else "false".data

/-- `format_id_datetime_tags`: the common header block
`Type/ID/DateTime/Tags` (the datetime formatted with `"%v %r"`, the tags
joined with a comma and space). -/
def format_id_datetime_tags (ty : GooseberryEntryType) (id : Nat) (dt : DateTimeUtc)
    (tags : List Str) : Str :=
  ("Type: ".data ++ ty.display) ++ '\n' ::
    (("ID: ".data ++ natToChars id) ++ '\n' ::
      (("DateTime: ".data ++ format_vr dt) ++ '\n' ::
        ("Tags: ".data ++ joinSep ", ".data tags)))

/-- `TaskEntry::to_file`: the text written to the backing file. -/
def TaskEntry.to_file_string (e : TaskEntry) : Str :=
  HEADER_MARK ++ '\n' ::
    (format_id_datetime_tags .Task e.id e.datetime e.tags ++ '\n' ::
      (("Task: ".data ++ e.task) ++ '\n' ::
        (("Done: ".data ++ boolToChars e.done) ++ '\n' ::
          (HEADER_MARK ++ '\n' :: e.description))))

/-- `JournalEntry::to_file`. -/
def JournalEntry.to_file_string (e : JournalEntry) : Str :=
  HEADER_MARK ++ '\n' ::
    (format_id_datetime_tags .Journal e.id e.datetime e.tags ++ '\n' ::
      (HEADER_MARK ++ '\n' :: e.description))

/-- `ResearchEntry::to_file`. -/
def ResearchEntry.to_file_string (e : ResearchEntry) : Str :=
  HEADER_MARK ++ '\n' ::
    (format_id_datetime_tags .Research e.id e.datetime e.tags ++ '\n' ::
      (("Title: ".data ++ e.title) ++ '\n' ::
        (HEADER_MARK ++ '\n' :: e.notes)))

/-- `EventEntry::to_file`. -/
def EventEntry.to_file_string (e : EventEntry) : Str :=
  HEADER_MARK ++ '\n' ::
    (format_id_datetime_tags .Event e.id e.datetime e.tags ++ '\n' ::
      (("Title: ".data ++ e.title) ++ '\n' ::
        (("People: ".data ++ joinSep ", ".data e.people) ++ '\n' ::
          (HEADER_MARK ++ '\n' :: e.notes))))

/-- `GooseberryEntry::to_file`: dispatch on the variant. -/
def GooseberryEntry.to_file_string : GooseberryEntry → Str
  | .Task e => e.to_file_string
  | .Journal e => e.to_file_string
  | .Research e => e.to_file_string
  | .Event e => e.to_file_string

/-- Find the first occurrence of the separator `": "`; `none` when the
separator does not occur, otherwise the text before it and after it. -/
def findCS : Str → Option (Str × Str)
  | [] => none
  | [_] => none
  | c1 :: c2 :: rest =>
    if c1 = ':' ∧ c2 = ' ' then some ([], rest)
    else
      match findCS (c2 :: rest) with
      | none => none
      | some (k, v) => some (c1 :: k, v)

/-- The segment up to the next `": "` separator (or all of the text). -/
def splitFirstSegment (s : Str) : Str :=
  match findCS s with
  | none => s
  | some (k, _) => k

/-- One header line turned into a key/value pair. Models
`line.split(": ").collect::<Vec<_>>()` followed by `parts[0]` and
`parts[1]`: the key is the text before the first `": "`, the value the
segment between the first and second occurrence; when the line has no
`": "` at all the `parts[1]` index is out of bounds and the program
panics. -/
def headerPairOfLine (l : Str) : RustResult (Str × Str) :=
  match findCS l with
  | none => .panic
  | some (k, rest) => .ok (k, splitFirstSegment rest)

/-- The collection loop of `consume_markdown_header`: gather lines until
the closing `HEADER_MARK`; when the input runs out first, the
`lines.next().unwrap()` panics. -/
def collectHeaderLines : List Str → RustResult (List Str × List Str)
  | [] => .panic
  | l :: rest =>
    if l = HEADER_MARK then .ok ([], rest)
    else
      match collectHeaderLines rest with
      | .ok (hs, rem) => .ok (l :: hs, rem)
      | .err e => .err e
      | .panic => .panic

/-- Turn the gathered header lines into pairs (any line without `": "`
panics). -/
def headerPairs : List Str → RustResult (List (Str × Str))
  | [] => .ok []
  | l :: rest =>
    match headerPairOfLine l with
    | .ok p =>
      match headerPairs rest with
      | .ok ps => .ok (p :: ps)
      | .err e => .err e
      | .panic => .panic
    | .err e => .err e
    | .panic => .panic

/-- `consume_markdown_header`: the first line must be the header
delimiter (else `MissingHeader`); the following lines up to the closing
delimiter are parsed as `Key: Value` pairs; returns the pairs and the
remaining lines. -/
def consume_markdown_header (lines : List Str) :
    RustResult (List (Str × Str) × List Str) :=
  match lines with
  | [] => .panic
  | l :: rest =>
    if l ≠ HEADER_MARK then .err .MissingHeader
    else
      match collectHeaderLines rest with
      | .ok (hs, rem) =>
        match headerPairs hs with
        | .ok ps => .ok (ps, rem)
        | .err e => .err e
        | .panic => .panic
      | .err e => .err e
      | .panic => .panic

/-- `get_header_lines`: split the file content on newlines, consume the
header, and join the remaining lines back into the body text. -/
def get_header_lines (content : Str) : RustResult (List (Str × Str) × Str) :=
  match consume_markdown_header (content.splitOn '\n') with
  | .ok (h, rest) => .ok (h, joinSep "\n".data rest)
  | .err e => .err e
  | .panic => .panic

/-- Lookup in the header map. The Rust code collects the pairs into a
`HashMap`, where a later duplicate key overwrites an earlier one, so the
last matching pair wins. -/
def hmGet (h : List (Str × Str)) (k : Str) : Option Str :=
  (h.reverse.find? fun p => decide (p.1 = k)).map (·.2)

/-- `get_id_datetime_tags`: the `ID` (parsed as `u64`), `DateTime`
(trimmed, parsed with `"%v %r"`) and `Tags` (split on commas, each tag
trimmed) header fields, each required. -/
def get_id_datetime_tags (h : List (Str × Str)) :
    RustResult (Nat × DateTimeUtc × List Str) :=
  match hmGet h "ID".data with
  | none => .err (.MissingHeaderElement "ID".data)
  | some ids =>
    match parseU64 ids with
    | none => .err (.IntParseError ids)
    | some id =>
      match hmGet h "DateTime".data with
      | none => .err (.MissingHeaderElement "DateTime".data)
      | some ds =>
        match parse_vr (rustTrim ds) with
        | none => .err (.ChronoParseError ds)
        | some dt =>
          match hmGet h "Tags".data with
          | none => .err (.MissingHeaderElement "Tags".data)
          | some ts => .ok (id, dt, (ts.splitOn ',').map rustTrim)

/-- `TaskEntry::from_header_lines`: the common fields plus the required,
trimmed `Task` and `Done` fields; the body becomes the description. -/
def TaskEntry.from_header_lines (h : List (Str × Str)) (lines : Str) :
    RustResult TaskEntry :=
  match get_id_datetime_tags h with
  | .ok (id, dt, tags) =>
    match hmGet h "Task".data with
    | none => .err (.MissingHeaderElement "Task".data)
    | some task =>
      match hmGet h "Done".data with
      | none => .err (.MissingHeaderElement "Done".data)
      | some dones =>
        match parseBool (rustTrim dones) with
        | none => .err (.BoolParseError dones)
        | some done => .ok ⟨id, rustTrim task, lines, dt, done, tags⟩
  | .err e => .err e
  | .panic => .panic

/-- `JournalEntry::from_header_lines`: only the common fields; the body
becomes the description. -/
def JournalEntry.from_header_lines (h : List (Str × Str)) (lines : Str) :
    RustResult JournalEntry :=
  match get_id_datetime_tags h with
  | .ok (id, dt, tags) => .ok ⟨id, lines, dt, tags⟩
  | .err e => .err e
  | .panic => .panic

/-- `ResearchEntry::from_header_lines`: the common fields plus the
required, trimmed `Title`. -/
def ResearchEntry.from_header_lines (h : List (Str × Str)) (lines : Str) :
    RustResult ResearchEntry :=
  match get_id_datetime_tags h with
  | .ok (id, dt, tags) =>
    match hmGet h "Title".data with
    | none => .err (.MissingHeaderElement "Title".data)
    | some title => .ok ⟨id, rustTrim title, lines, dt, tags⟩
  | .err e => .err e
  | .panic => .panic

/-- `EventEntry::from_header_lines`: the common fields plus the required
`Title` and comma-split `People`. -/
def EventEntry.from_header_lines (h : List (Str × Str)) (lines : Str) :
    RustResult EventEntry :=
  match get_id_datetime_tags h with
  | .ok (id, dt, tags) =>
    match hmGet h "Title".data with
    | none => .err (.MissingHeaderElement "Title".data)
    | some title =>
      match hmGet h "People".data with
      | none => .err (.MissingHeaderElement "People".data)
      | some ps => .ok ⟨id, rustTrim title, (ps.splitOn ',').map rustTrim, dt, lines, tags⟩
  | .err e => .err e
  | .panic => .panic

/-- `GooseberryEntry::from_header_lines`: read the required `Type` field
and dispatch to the variant parser. -/
def GooseberryEntry.from_header_lines (h : List (Str × Str)) (lines : Str) :
    RustResult GooseberryEntry :=
  match hmGet h "Type".data with
  | none => .err (.MissingHeaderElement "Type".data)
  | some tys =>
    match GooseberryEntryType.from_str tys with
    | .ok .Task =>
      match TaskEntry.from_header_lines h lines with
      | .ok e => .ok (.Task e)
      | .err e => .err e
      | .panic => .panic
    | .ok .Research =>
      match ResearchEntry.from_header_lines h lines with
      | .ok e => .ok (.Research e)
      | .err e => .err e
      | .panic => .panic
    | .ok .Journal =>
      match JournalEntry.from_header_lines h lines with
      | .ok e => .ok (.Journal e)
      | .err e => .err e
      | .panic => .panic
    | .ok .Event =>
      match EventEntry.from_header_lines h lines with
      | .ok e => .ok (.Event e)
      | .err e => .err e
      | .panic => .panic
    | .err e => .err e
    | .panic => .panic

/-- `GooseberryEntry::from_file` on the file content (the file read
itself is out of scope): this is the decode direction of the codec. -/
def GooseberryEntry.from_file_string (content : Str) : RustResult GooseberryEntry :=
  match get_header_lines content with
  | .ok (h, lines) => GooseberryEntry.from_header_lines h lines
  | .err e => .err e
  | .panic => .panic

/-- Comma-split-and-trim used for the `Tags` (and `People`) input boxes. -/
def splitTags (s : Str) : List Str := (s.splitOn ',').map rustTrim

/-- `GooseberryEntryType::get_input_boxes`: the fixed field layout of
each category, with the titles, markdown flags and height percentages
of `entry.rs`. -/
def GooseberryEntryType.get_input_boxes : GooseberryEntryType → InputBoxes
  | .Task => InputBoxes.new
      [InputBox.new "Task".data false 10,
       InputBox.new "Description".data true 60,
       InputBox.new "Tags".data false 10]
  | .Journal => InputBoxes.new
      [InputBox.new "Description".data false 10,
       InputBox.new "Tags".data false 10]
  | .Research => InputBoxes.new
      [InputBox.new "Title".data false 10,
       InputBox.new "Notes".data true 60,
       InputBox.new "Tags".data false 10]
  | .Event => InputBoxes.new
      [InputBox.new "Title".data false 10,
       InputBox.new "Notes".data true 50,
       InputBox.new "People".data false 10,
       InputBox.new "Tags".data false 10]

/-- `TaskEntry::from_input_boxes`: box 0 is the task, box 1 the
description, box 2 the comma-separated tags; the timestamp is
`Utc::now()` (passed in as `now`) and `done` starts `false`. Fewer than
three boxes would make the Rust indexing panic. -/
def TaskEntry.from_input_boxes (id : Nat) (ty : GooseberryEntryType)
    (boxes : List InputBox) (now : DateTimeUtc) : RustResult TaskEntry :=
  if ty ≠ .Task then .err (.WrongEntryType .Task ty)
  else
    match boxes with
    | b0 :: b1 :: b2 :: _ =>
      .ok ⟨id, b0.get_content, b1.get_content, now, false, splitTags b2.get_content⟩
    | _ => .panic

/-- `JournalEntry::from_input_boxes`: box 0 description, box 1 tags. -/
def JournalEntry.from_input_boxes (id : Nat) (ty : GooseberryEntryType)
    (boxes : List InputBox) (now : DateTimeUtc) : RustResult JournalEntry :=
  if ty ≠ .Journal then .err (.WrongEntryType .Journal ty)
  else
    match boxes with
    | b0 :: b1 :: _ => .ok ⟨id, b0.get_content, now, splitTags b1.get_content⟩
    | _ => .panic

/-- `ResearchEntry::from_input_boxes`: box 0 title, box 1 notes, box 2
tags. -/
def ResearchEntry.from_input_boxes (id : Nat) (ty : GooseberryEntryType)
    (boxes : List InputBox) (now : DateTimeUtc) : RustResult ResearchEntry :=
  if ty ≠ .Research then .err (.WrongEntryType .Research ty)
  else
    match boxes with
    | b0 :: b1 :: b2 :: _ =>
      .ok ⟨id, b0.get_content, b1.get_content, now, splitTags b2.get_content⟩
    | _ => .panic

/-- `EventEntry::from_input_boxes`: box 0 title, box 1 notes, box 2
people, box 3 tags. -/
def EventEntry.from_input_boxes (id : Nat) (ty : GooseberryEntryType)
    (boxes : List InputBox) (now : DateTimeUtc) : RustResult EventEntry :=
  if ty ≠ .Event then .err (.WrongEntryType .Event ty)
  else
    match boxes with
    | b0 :: b1 :: b2 :: b3 :: _ =>
      .ok ⟨id, b0.get_content, splitTags b2.get_content, now, b1.get_content,
        splitTags b3.get_content⟩
    | _ => .panic

/-- `GooseberryEntry::from_input_boxes`: dispatch on the entry type. -/
def GooseberryEntry.from_input_boxes (id : Nat) (ty : GooseberryEntryType)
    (boxes : List InputBox) (now : DateTimeUtc) : RustResult GooseberryEntry :=
  match ty with
  | .Task =>
    match TaskEntry.from_input_boxes id ty boxes now with
    | .ok e => .ok (.Task e)
    | .err e => .err e
    | .panic => .panic
  | .Journal =>
    match JournalEntry.from_input_boxes id ty boxes now with
    | .ok e => .ok (.Journal e)
    | .err e => .err e
    | .panic => .panic
  | .Event =>
    match EventEntry.from_input_boxes id ty boxes now with
    | .ok e => .ok (.Event e)
    | .err e => .err e
    | .panic => .panic
  | .Research =>
    match ResearchEntry.from_input_boxes id ty boxes now with
    | .ok e => .ok (.Research e)
    | .err e => .err e
    | .panic => .panic

/-- `TaskEntry::to_input_boxes`: pre-populate the Task layout. -/
def TaskEntry.to_input_boxes (e : TaskEntry) : InputBoxes :=
  (((GooseberryEntryType.Task.get_input_boxes).replace_content 0 e.task).replace_content 1
      e.description).replace_content 2 (joinSep ", ".data e.tags)

/-- `JournalEntry::to_input_boxes`. -/
def JournalEntry.to_input_boxes (e : JournalEntry) : InputBoxes :=
  ((GooseberryEntryType.Journal.get_input_boxes).replace_content 0
      e.description).replace_content 1 (joinSep ", ".data e.tags)

/-- `ResearchEntry::to_input_boxes`. -/
def ResearchEntry.to_input_boxes (e : ResearchEntry) : InputBoxes :=
  (((GooseberryEntryType.Research.get_input_boxes).replace_content 0 e.title).replace_content
      1 e.notes).replace_content 2 (joinSep ", ".data e.tags)

/-- `EventEntry::to_input_boxes`. -/
def EventEntry.to_input_boxes (e : EventEntry) : InputBoxes :=
  ((((GooseberryEntryType.Event.get_input_boxes).replace_content 0 e.title).replace_content 1
      e.notes).replace_content 2 (joinSep ", ".data e.people)).replace_content 3
    (joinSep ", ".data e.tags)

/-- `GooseberryEntry::to_input_boxes`: dispatch. -/
def GooseberryEntry.to_input_boxes : GooseberryEntry → InputBoxes
  | .Task e => e.to_input_boxes
  | .Journal e => e.to_input_boxes
  | .Research e => e.to_input_boxes
  | .Event e => e.to_input_boxes

/-- `TaskEntry::toggle`: flip the completion flag. -/
def TaskEntry.toggle (e : TaskEntry) : TaskEntry := { e with done := !e.done }

/-- `TaskEntry::merge_with_entry`: take `id`, `datetime` and `done` from
the old entry. -/
def TaskEntry.merge_with_entry (self old : TaskEntry) : TaskEntry :=
  { self with id := old.id, datetime := old.datetime, done := old.done }

/-- `JournalEntry::merge_with_entry`: take `id` and `datetime` from the
old entry. -/
def JournalEntry.merge_with_entry (self old : JournalEntry) : JournalEntry :=
  { self with id := old.id, datetime := old.datetime }

/-- `ResearchEntry::merge_with_entry`. -/
def ResearchEntry.merge_with_entry (self old : ResearchEntry) : ResearchEntry :=
  { self with id := old.id, datetime := old.datetime }

/-- `EventEntry::merge_with_entry`. -/
def EventEntry.merge_with_entry (self old : EventEntry) : EventEntry :=
  { self with id := old.id, datetime := old.datetime }

/-- `GooseberryEntry::merge_with_entry`: merge matching variants; on a
variant mismatch the entry is left unchanged. -/
def GooseberryEntry.merge_with_entry (self old : GooseberryEntry) : GooseberryEntry :=
  match self, old with
  | .Task e, .Task o => .Task (e.merge_with_entry o)
  | .Journal e, .Journal o => .Journal (e.merge_with_entry o)
  | .Research e, .Research o => .Research (e.merge_with_entry o)
  | .Event e, .Event o => .Event (e.merge_with_entry o)
  | e, _ => e

/-! ### The category tab (`src/app.rs`)

`GooseberryTab` binds one catalog (`entries` + `visible_ids` +
`next_id`), one field form and the target-picker fields. The embedding
follows `src/app.rs`, the revision with the merge-on-edit and delete
paths; `src/gooseberry_app.rs` and `src/tabs.rs` are earlier revisions
of the same component and agree with it on everything modelled here
except where noted. The `title`/`folder`/`cursor` fields (pure
rendering and path concerns) are omitted. The `HashMap<u64, _>` of
entries is modelled as an association list with unique keys, insertion
overwriting an existing key. File-system effects are returned as a list
of `FileOp` values (the writes always succeed; storage failures are out
of scope per the design). -/

/-- An effect on the backing record store. -/
inductive FileOp
  | Write (name : Str) (content : Str)
  | Remove (name : Str)
deriving DecidableEq, Repr

/-- Association-list model of `HashMap::get`. -/
def mapGet {α : Type} (m : List (Nat × α)) (k : Nat) : Option α :=
  (m.find? fun p => decide (p.1 = k)).map (·.2)

/-- Association-list model of `HashMap::contains_key`. -/
def mapContains {α : Type} (m : List (Nat × α)) (k : Nat) : Bool :=
  m.any fun p => decide (p.1 = k)

/-- Association-list model of `HashMap::insert`: overwrite the existing
binding or append a new one. -/
def mapInsert {α : Type} (m : List (Nat × α)) (k : Nat) (v : α) : List (Nat × α) :=
  if mapContains m k then m.map fun p => if p.1 = k then (k, v) else p
  else m ++ [(k, v)]

/-- Association-list model of `HashMap::remove` (ignoring the returned
value). -/
def mapRemove {α : Type} (m : List (Nat × α)) (k : Nat) : List (Nat × α) :=
  m.filter fun p => decide (p.1 ≠ k)

/-- The category tab state (`GooseberryTab` of `src/app.rs`). -/
structure GooseberryTab where
  entry_type : GooseberryEntryType
  fold : Bool
  entries : List (Nat × GooseberryEntry)
  visible_ids : List Nat
  is_writing : Bool
  input_boxes : InputBoxes
  next_id : Nat
  scroll : Nat
  picking_char : Option Char
  picking_entry : Bool
  selected_entry : Nat
  editing_entry : Option GooseberryEntry
deriving DecidableEq, Repr

/-- Maximum of a list of ids, `0` when empty
(`visible_ids.iter().max().unwrap_or(&0)`). -/
def listMax (l : List Nat) : Nat := l.foldr max 0

/-- `GooseberryTab::from_folder` after the per-file decoding: push each
decoded id onto `visible_ids`, insert the entry, and set `next_id` to
one more than the largest visible id (`1` for an empty catalog). A
decode failure aborts the whole load; the claims quantify over
successfully loaded catalogs, so the argument is the list of decoded
entries in discovery order. -/
def GooseberryTab.from_folder (entry_type : GooseberryEntryType)
    (decoded : List GooseberryEntry) : GooseberryTab :=
  let fin := decoded.foldl
    (fun (acc : List (Nat × GooseberryEntry) × List Nat) g =>
      (mapInsert acc.1 g.id g, acc.2 ++ [g.id]))
    ([], [])
  { entry_type := entry_type
    fold := false
    entries := fin.1
    visible_ids := fin.2
    is_writing := false
    input_boxes := entry_type.get_input_boxes
    next_id := listMax fin.2 + 1
    scroll := 0
    picking_char := none
    picking_entry := false
    selected_entry := 0
    editing_entry := none }

/-- `GooseberryTab::save_entry`: look the entry up (`MissingEntryID`
when absent) and write its encoded text to `{entry_type}_{id}.md`. -/
def GooseberryTab.save_entry (t : GooseberryTab) (id : Nat) : Except AppError FileOp :=
  match mapGet t.entries id with
  | none => .error (.MissingEntryID t.entry_type id)
  | some e => .ok (.Write (t.entry_type.file_name id) e.to_file_string)

/-- `GooseberryTab::toggle_task_entry`: on the Task tab, look up the
selected entry (`MissingEntryID` when absent), flip its `done` flag if
it is a Task variant, and persist it; on the other tabs a silent
no-op. Returns the resulting tab, the file operations performed, and
the error if any. -/
def GooseberryTab.toggle_task_entry (t : GooseberryTab) :
    GooseberryTab × List FileOp × Option AppError :=
  if t.entry_type = .Task then
    match mapGet t.entries t.selected_entry with
    | none => (t, [], some (.MissingEntryID t.entry_type t.selected_entry))
    | some ge =>
      let ge2 := match ge with
        | .Task te => GooseberryEntry.Task te.toggle
        | other => other
      let t2 := { t with entries := mapInsert t.entries t.selected_entry ge2 }
      match t2.save_entry t.selected_entry with
      | .ok op => (t2, [op], none)
      | .error e => (t2, [], some e)
  else (t, [], none)

/-- `GooseberryTab::start_editing`: look the selected entry up
(`MissingEntryID` when absent), pre-populate the input boxes from it,
enter writing mode and remember the clone as `editing_entry`. -/
def GooseberryTab.start_editing (t : GooseberryTab) : GooseberryTab × Option AppError :=
  match mapGet t.entries t.selected_entry with
  | none => (t, some (.MissingEntryID t.entry_type t.selected_entry))
  | some e =>
    ({ t with input_boxes := e.to_input_boxes, is_writing := true, editing_entry := some e },
     none)

/-- `GooseberryTab::merge_entry`: build a new entry from the boxes at
the id of the entry being edited, merge the server-owned fields from
the old entry, insert and persist. `none` models the panic of an
ill-sized box list. -/
def GooseberryTab.merge_entry (t : GooseberryTab) (now : DateTimeUtc)
    (boxes : List InputBox) : Option (GooseberryTab × List FileOp × Option AppError) :=
  match t.editing_entry with
  | none =>
    some (t, [], some (.OutOfCheeseError "I already checked that this is_some but is_none!".data))
  | some old =>
    match GooseberryEntry.from_input_boxes old.id t.entry_type boxes now with
    | .panic => none
    | .err e => some (t, [], some e)
    | .ok newe =>
      let merged := newe.merge_with_entry old
      let t2 := { t with entries := mapInsert t.entries old.id merged }
      match t2.save_entry old.id with
      | .ok op => some (t2, [op], none)
      | .error e => some (t2, [], some e)

/-- `GooseberryTab::add_entry`: build a new entry from the boxes at the
given id, insert it, push the id onto `visible_ids` and persist.
(The `src/app.rs` revision pushes unconditionally; the
`src/gooseberry_app.rs` and `src/tabs.rs` revisions push only when the
key was absent — identical behaviour at the fresh ids this is called
with.) `none` models the panic of an ill-sized box list. -/
def GooseberryTab.add_entry (t : GooseberryTab) (now : DateTimeUtc)
    (boxes : List InputBox) (id : Nat) :
    Option (GooseberryTab × List FileOp × Option AppError) :=
  match GooseberryEntry.from_input_boxes id t.entry_type boxes now with
  | .panic => none
  | .err e => some (t, [], some e)
  | .ok newe =>
    let t2 := { t with entries := mapInsert t.entries id newe,
                       visible_ids := t.visible_ids ++ [id] }
    match t2.save_entry id with
    | .ok op => some (t2, [op], none)
    | .error e => some (t2, [], some e)

/-- `GooseberryTab::delete_entry`: error when the id is absent;
otherwise remove it from `entries`, remove its first occurrence from
`visible_ids` (`Vec::remove_item`) and delete the backing file. -/
def GooseberryTab.delete_entry (t : GooseberryTab) (id : Nat) :
    GooseberryTab × List FileOp × Option AppError :=
  if mapContains t.entries id then
    ({ t with entries := mapRemove t.entries id, visible_ids := t.visible_ids.erase id },
     [.Remove (t.entry_type.file_name id)], none)
  else (t, [], some (.MissingEntryID t.entry_type id))

/-- `GooseberryTab::keypress` of `src/app.rs`. In writing mode the key
goes to the input boxes; a returned snapshot is merged (when editing)
or added at `next_id` (when new, incrementing `next_id` on success).
In scrolling mode: `n` starts writing, tab toggles folding, `t`/`e`/`d`
arm the target picker, digits accumulate the selected id while picking,
and the newline confirm dispatches the armed command and then resets
the picker state — but an error in the dispatched action propagates
with `?` BEFORE that reset. The result carries the (possibly partially
mutated) tab, the file operations performed and the propagated error;
`none` models a panic. -/
def GooseberryTab.keypress (t : GooseberryTab) (now : DateTimeUtc) (key : KeyEvent) :
    Option (GooseberryTab × List FileOp × Option AppError) :=
  if t.is_writing then
    match t.input_boxes.keypress key with
    | (ib2, newEntry, stop) =>
      let t1 := { t with input_boxes := ib2 }
      match newEntry with
      | some boxes =>
        if t1.editing_entry.isSome then
          match t1.merge_entry now boxes with
          | none => none
          | some (t2, ops, some e) => some (t2, ops, some e)
          | some (t2, ops, none) =>
            let t3 := { t2 with editing_entry := none }
            some (if stop then { t3 with is_writing := false } else t3, ops, none)
        else
          match t1.add_entry now boxes t1.next_id with
          | none => none
          | some (t2, ops, some e) => some (t2, ops, some e)
          | some (t2, ops, none) =>
            let t3 := { t2 with next_id := t2.next_id + 1 }
            some (if stop then { t3 with is_writing := false } else t3, ops, none)
      | none => some (if stop then { t1 with is_writing := false } else t1, [], none)
  else
    match key with
    | .Char c =>
      if c = 'n' then
        some ({ t with is_writing := true, input_boxes := t.input_boxes.start_writing },
          [], none)
      else if c = '\t' then some ({ t with fold := !t.fold }, [], none)
      else if c = 't' ∨ c = 'e' ∨ c = 'd' then
        some ({ t with picking_char := some c, picking_entry := true, selected_entry := 0 },
          [], none)
      else if c.isDigit then
        if t.picking_entry then
          if t.selected_entry > 0 then
            match parseU64 (natToChars t.selected_entry ++ [c]) with
            | some v => some ({ t with selected_entry := v }, [], none)
            | none => some (t, [], some (.IntParseError (natToChars t.selected_entry ++ [c])))
          else
            match parseU64 [c] with
            | some v => some ({ t with selected_entry := v }, [], none)
            | none => some (t, [], some (.IntParseError [c]))
        else some (t, [], none)
      else if c = '\n' then
        match t.picking_char with
        | some pc =>
          let r :=
            if pc = 't' then t.toggle_task_entry
            else if pc = 'e' then
              match t.start_editing with
              | (t2, er) => (t2, [], er)
            else if pc = 'd' then t.delete_entry t.selected_entry
            else (t, [], none)
          match r with
          | (t2, ops, some e) => some (t2, ops, some e)
          | (t2, ops, none) =>
            some ({ t2 with picking_entry := false, selected_entry := 0, picking_char := none },
              ops, none)
        | none =>
          some ({ t with picking_entry := false, selected_entry := 0, picking_char := none },
            [], none)
      else some (t, [], none)
    | .Down => some ({ t with scroll := t.scroll + 1 }, [], none)
    | .Up => some ({ t with scroll := t.scroll - 1 }, [], none)
    | _ => some (t, [], none)

/-! ### Catalog operation sequences

The user-level catalog operations, each an atomic unit: a new-entry
save, an edit of an existing id followed by a save, and a delete. A
failed operation leaves the state as the `?` early return leaves it
(for these operations: unchanged); a panic aborts the process, so the
panic branch (ill-sized boxes, never reachable from the fixed layouts)
also keeps the pre-state for totality. -/

/-- One atomic catalog operation. -/
inductive CatalogOp
  | add (now : DateTimeUtc) (boxes : List InputBox)
  | editSave (id : Nat) (now : DateTimeUtc) (boxes : List InputBox)
  | delete (id : Nat)

/-- Apply one operation, as the keypress paths of `src/app.rs` do:
`add` consumes `next_id` and increments it on success; `editSave` is
`start_editing` on the id followed by a saving keypress with the given
boxes; `delete` is `delete_entry`. -/
def applyOp (t : GooseberryTab) : CatalogOp → GooseberryTab
  | .add now boxes =>
    match t.add_entry now boxes t.next_id with
    | some (t2, _, none) => { t2 with next_id := t2.next_id + 1 }
    | some (t2, _, some _) => t2
    | none => t
  | .editSave id now boxes =>
    match mapGet t.entries id with
    | none => t
    | some old =>
      let t1 := { t with input_boxes := old.to_input_boxes, is_writing := true,
                         editing_entry := some old }
      match t1.merge_entry now boxes with
      | some (t2, _, none) => { t2 with editing_entry := none, is_writing := false }
      | some (t2, _, some _) => t2
      | none => t
  | .delete id => (t.delete_entry id).1

/-- Run a sequence of catalog operations. -/
def runOps (t : GooseberryTab) (ops : List CatalogOp) : GooseberryTab :=
  ops.foldl applyOp t

/-! ### Lemmas about decimal rendering and parsing -/

theorem natToCharsAux_shift (f : Nat) : ∀ n acc, natToCharsAux f n acc = natToCharsAux f n [] ++ acc := by
  induction f with
  | zero => intro n acc; simp [natToCharsAux]
  | succ f ih =>
    intro n acc
    by_cases h : n < 10
    · simp [natToCharsAux, h]
    · simp only [natToCharsAux, if_neg h]
      rw [ih (n / 10) (Char.ofNat (48 + n % 10) :: acc), ih (n / 10) [Char.ofNat (48 + n % 10)]]
      simp

theorem natToCharsAux_fuel (f : Nat) : ∀ g n acc, n ≤ f → f ≤ g →
    natToCharsAux (g + 1) n acc = natToCharsAux (f + 1) n acc := by
  induction f with
  | zero =>
    intro g n acc hn _
    interval_cases n
    simp [natToCharsAux]
  | succ f ih =>
    intro g n acc hn hg
    by_cases h : n < 10
    · simp [natToCharsAux, h]
    · obtain ⟨g', rfl⟩ : ∃ g', g = g' + 1 := ⟨g - 1, by omega⟩
      simp only [natToCharsAux, if_neg h]
      have hd : n / 10 < n := Nat.div_lt_self (by omega) (by omega)
      exact ih g' (n / 10) _ (by omega) (by omega)

theorem natToChars_lt_ten {n : Nat} (h : n < 10) : natToChars n = [Char.ofNat (48 + n)] := by
  have : n % 10 = n := Nat.mod_eq_of_lt h
  simp [natToChars, natToCharsAux, h, this]

theorem natToChars_ge_ten {n : Nat} (h : 10 ≤ n) :
    natToChars n = natToChars (n / 10) ++ [Char.ofNat (48 + n % 10)] := by
  have hd : n / 10 < n := Nat.div_lt_self (by omega) (by omega)
  have h1 : natToChars n = natToCharsAux n (n / 10) [Char.ofNat (48 + n % 10)] := by
    simp [natToChars, natToCharsAux, Nat.not_lt.mpr h]
  obtain ⟨m, rfl⟩ : ∃ m, n = m + 1 := ⟨n - 1, by omega⟩
  rw [h1, natToCharsAux_fuel ((m + 1) / 10) m ((m + 1) / 10) _ (by omega) (by omega),
    natToCharsAux_shift]
  rfl

theorem charVal_ofNat {n : Nat} (h : n < 10) : charVal (Char.ofNat (48 + n)) = n := by
  interval_cases n <;> decide

theorem isDigit_ofNat {n : Nat} (h : n < 10) : (Char.ofNat (48 + n)).isDigit = true := by
  interval_cases n <;> decide

theorem natToChars_all_digits (n : Nat) : (natToChars n).all Char.isDigit = true := by
  induction n using Nat.strong_induction_on with
  | _ n ih =>
    by_cases h : n < 10
    · rw [natToChars_lt_ten h]
      simp [isDigit_ofNat h]
    · rw [natToChars_ge_ten (by omega), List.all_append]
      have hd : n / 10 < n := Nat.div_lt_self (by omega) (by omega)
      simp [ih _ hd, isDigit_ofNat (Nat.mod_lt n (by omega))]

theorem natToChars_ne_nil (n : Nat) : natToChars n ≠ [] := by
  by_cases h : n < 10
  · rw [natToChars_lt_ten h]; simp
  · rw [natToChars_ge_ten (by omega)]; simp

theorem digitsVal_natToChars (n : Nat) : digitsVal (natToChars n) = n := by
  induction n using Nat.strong_induction_on with
  | _ n ih =>
    by_cases h : n < 10
    · rw [natToChars_lt_ten h]
      simp [digitsVal, charVal_ofNat h]
    · have hd : n / 10 < n := Nat.div_lt_self (by omega) (by omega)
      rw [natToChars_ge_ten (by omega)]
      simp only [digitsVal] at ih ⊢
      rw [List.foldl_append, ih _ hd]
      simp [charVal_ofNat (Nat.mod_lt n (by omega)), Nat.div_add_mod]

theorem natToChars_head_digit (n : Nat) :
    ∃ c cs, natToChars n = c :: cs ∧ c.isDigit = true := by
  rcases hn : natToChars n with - | ⟨c, cs⟩
  · exact absurd hn (natToChars_ne_nil n)
  · refine ⟨c, cs, rfl, ?_⟩
    have := natToChars_all_digits n
    rw [hn] at this
    simp only [List.all_cons, Bool.and_eq_true] at this
    exact this.1

theorem parseU64_natToChars {n : Nat} (h : n < u64Size) : parseU64 (natToChars n) = some n := by
  obtain ⟨c, cs, hcs, hdig⟩ := natToChars_head_digit n
  have hplus : c ≠ '+' := by
    intro hc
    rw [hc] at hdig
    simp [Char.isDigit] at hdig
  have hh : (natToChars n).head? ≠ some '+' := by rw [hcs]; simp [hplus]
  rw [parseU64, if_neg hh]
  simp [natToChars_ne_nil n, natToChars_all_digits n, digitsVal_natToChars n, h]

/-! ### Lemmas about the timestamp codec -/

theorem natToChars_length_le (k : Nat) : ∀ n, n < 10 ^ k → 1 ≤ k → (natToChars n).length ≤ k := by
  induction k with
  | zero => intro n _ hk; omega
  | succ k ih =>
    intro n hn _
    by_cases h : n < 10
    · rw [natToChars_lt_ten h]; simp
    · rw [natToChars_ge_ten (by omega)]
      have hk1 : 1 ≤ k := by
        by_contra hc
        have : k = 0 := by omega
        subst this
        simp at hn
        omega
      have := ih (n / 10) (Nat.div_lt_of_lt_mul (by rw [← pow_succ']; exact hn)) hk1
      simp only [List.length_append, List.length_cons, List.length_nil]
      omega

theorem isWhitespace_of_isDigit {c : Char} (h : c.isDigit = true) : c.isWhitespace = false := by
  cases hh : c.isWhitespace
  · rfl
  · exfalso
    simp only [Char.isWhitespace, Bool.or_eq_true, decide_eq_true_eq] at hh
    rcases hh with ((rfl | rfl) | rfl) | rfl <;> simp [Char.isDigit] at h

theorem skipWs_of_head_digit {c : Char} {cs : Str} (h : c.isDigit = true) :
    skipWs (c :: cs) = c :: cs := by
  simp [skipWs, List.dropWhile_cons, isWhitespace_of_isDigit h]

theorem skipWs_space (cs : Str) : skipWs (' ' :: cs) = skipWs cs := by
  simp [skipWs, List.dropWhile_cons]

theorem readNumAux_digits : ∀ (ds : Str) (m acc : Nat) (c : Char) (rest : Str),
    ds.all Char.isDigit = true → ds.length ≤ m → c.isDigit = false →
    readNumAux m (ds ++ c :: rest) acc =
      (ds.foldl (fun a d => 10 * a + charVal d) acc, c :: rest) := by
  intro ds
  induction ds with
  | nil =>
    intro m acc c rest _ _ hc
    cases m with
    | zero => simp [readNumAux]
    | succ m => simp [readNumAux, hc]
  | cons d ds ih =>
    intro m acc c rest hall hlen hc
    simp only [List.all_cons, Bool.and_eq_true] at hall
    obtain ⟨m', rfl⟩ : ∃ m', m = m' + 1 := ⟨m - 1, by simp at hlen; omega⟩
    simp only [List.cons_append, readNumAux, hall.1, if_pos, List.append_eq]
    rw [ih m' _ c rest hall.2 (by simp at hlen ⊢; omega) hc]
    simp

theorem readNum_digits {m : Nat} {ds : Str} {c : Char} {rest : Str}
    (h1 : ds ≠ []) (h2 : ds.all Char.isDigit = true) (h3 : ds.length ≤ m)
    (h4 : c.isDigit = false) :
    readNum m (ds ++ c :: rest) = some (digitsVal ds, c :: rest) := by
  rcases ds with - | ⟨d, ds'⟩
  · exact absurd rfl h1
  · simp only [List.all_cons, Bool.and_eq_true] at h2
    simp only [List.cons_append, readNum, h2.1, if_pos]
    rw [readNumAux_digits ds' (m - 1) _ c rest h2.2 (by simp at h3 ⊢; omega) h4]
    simp only [Option.some.injEq, Prod.mk.injEq, and_true]
    simp [digitsVal, charVal]

theorem digitsVal_zero_cons (xs : Str) : digitsVal ('0' :: xs) = digitsVal xs := by
  simp [digitsVal, charVal]

theorem pad2_all_digits (n : Nat) : (pad2 n).all Char.isDigit = true := by
  by_cases h : n < 10
  · simp [pad2, h, natToChars_all_digits]
  · simp [pad2, h, natToChars_all_digits]

theorem pad2_length {n : Nat} (h : n ≤ 99) : (pad2 n).length = 2 := by
  by_cases h10 : n < 10
  · simp [pad2, h10, natToChars_lt_ten h10]
  · have := natToChars_ge_ten (Nat.not_lt.mp h10)
    have hq : n / 10 < 10 := by omega
    simp [pad2, h10, this, natToChars_lt_ten hq]

theorem pad2_ne_nil (n : Nat) : pad2 n ≠ [] := by
  by_cases h : n < 10
  · simp [pad2, h]
  · simp [pad2, h, natToChars_ne_nil]

theorem digitsVal_pad2 (n : Nat) : digitsVal (pad2 n) = n := by
  by_cases h : n < 10
  · simp only [pad2, if_pos h]
    rw [digitsVal_zero_cons, digitsVal_natToChars]
  · simp only [pad2, if_neg h]
    exact digitsVal_natToChars n

theorem pad2_head_digit (n : Nat) : ∃ c cs, pad2 n = c :: cs ∧ c.isDigit = true := by
  by_cases h : n < 10
  · exact ⟨'0', natToChars n, by simp [pad2, h], by decide⟩
  · obtain ⟨c, cs, hc, hd⟩ := natToChars_head_digit n
    exact ⟨c, cs, by simp [pad2, h, hc], hd⟩

theorem digitsVal_replicate_zero (k : Nat) : ∀ xs, digitsVal (List.replicate k '0' ++ xs) = digitsVal xs := by
  induction k with
  | zero => intro xs; simp
  | succ k ih => intro xs; rw [List.replicate_succ, List.cons_append, digitsVal_zero_cons, ih]

theorem pad4_all_digits (n : Nat) : (pad4 n).all Char.isDigit = true := by
  simp only [pad4, List.all_append, Bool.and_eq_true]
  constructor
  · rw [List.all_eq_true]
    intro c hc
    rw [List.eq_of_mem_replicate hc]
    decide
  · exact natToChars_all_digits n

theorem pad4_length {n : Nat} (h : n ≤ 9999) : (pad4 n).length = 4 := by
  have hle : (natToChars n).length ≤ 4 := natToChars_length_le 4 n (by omega) (by omega)
  simp only [pad4, List.length_append, List.length_replicate]
  omega

theorem pad4_ne_nil (n : Nat) : pad4 n ≠ [] := by
  simp [pad4, natToChars_ne_nil n]

theorem digitsVal_pad4 (n : Nat) : digitsVal (pad4 n) = n := by
  rw [pad4, digitsVal_replicate_zero, digitsVal_natToChars]

theorem pad4_head_digit (n : Nat) : ∃ c cs, pad4 n = c :: cs ∧ c.isDigit = true := by
  rw [pad4]
  rcases hk : 4 - (natToChars n).length with - | k
  · simpa [hk] using natToChars_head_digit n
  · exact ⟨'0', List.replicate k '0' ++ natToChars n, by simp [hk, List.replicate_succ], by decide⟩

theorem hour12_bounds (h : Nat) : 1 ≤ hour12 h ∧ hour12 h ≤ 12 := by
  rw [hour12]
  by_cases hz : h % 12 = 0
  · simp [hz]
  · have : h % 12 < 12 := Nat.mod_lt h (by omega)
    simp [hz]
    omega

theorem hour12_reconstruct {h : Nat} (hlt : h ≤ 23) :
    hour12 h % 12 + (if h < 12 then 0 else 12) = h := by
  rw [hour12]
  have h12 : h % 12 < 12 := Nat.mod_lt h (by omega)
  by_cases hz : h % 12 = 0
  · have : h = 0 ∨ h = 12 := by omega
    rcases this with rfl | rfl <;> simp
  · rw [if_neg hz, Nat.mod_eq_of_lt h12]
    by_cases hsm : h < 12
    · simp [hsm, Nat.mod_eq_of_lt hsm]
    · have : h % 12 = h - 12 := by omega
      simp [hsm, this]
      omega

theorem monthAbbrev_round (m : Nat) (h1 : 1 ≤ m) (h2 : m ≤ 12) :
    ∃ a b c, monthAbbrev m = [a, b, c] ∧ monthFromAbbrev a b c = some m := by
  interval_cases m <;> exact ⟨_, _, _, rfl, by decide⟩

/-- The portion of the `%v %r` output after the day field, fully
right-nested. -/
def format_vr_tail (d : DateTimeUtc) : Str :=
  '-' :: (monthAbbrev d.month ++ '-' :: (pad4 d.year ++ ' ' ::
    (pad2 (hour12 d.hour) ++ ':' :: (pad2 d.minute ++ ':' ::
      (pad2 d.second ++ ' ' :: meridiem d.hour)))))

theorem format_vr_decomp (d : DateTimeUtc) :
    format_vr d = spacePad2 d.day ++ format_vr_tail d := by
  simp [format_vr, format_vr_tail]

theorem getLast_append_cons {y : Str} (x : Str) (c : Char)
    (h : y.getLast? = some 'M') : (x ++ c :: y).getLast? = some 'M' := by
  rw [List.getLast?_append]
  have h2 : (c :: y).getLast? = some 'M' := by
    rw [List.getLast?_cons, h]
    rfl
  simp [h2]

theorem format_vr_tail_getLast (d : DateTimeUtc) :
    (format_vr_tail d).getLast? = some 'M' := by
  have h0 : (meridiem d.hour).getLast? = some 'M' := by
    rw [meridiem]; split <;> rfl
  have h1 := getLast_append_cons (pad2 d.second) ' ' h0
  have h2 := getLast_append_cons (pad2 d.minute) ':' h1
  have h3 := getLast_append_cons (pad2 (hour12 d.hour)) ':' h2
  have h4 := getLast_append_cons (pad4 d.year) ' ' h3
  have h5 := getLast_append_cons (monthAbbrev d.month) '-' h4
  rw [format_vr_tail, List.getLast?_cons, h5]
  rfl

theorem rustTrim_eq_dropWhile {s : Str}
    (h : ∀ c, s.getLast? = some c → c.isWhitespace = false) :
    rustTrim s = s.dropWhile Char.isWhitespace := by
  rw [rustTrim]
  by_cases hnil : s.dropWhile Char.isWhitespace = []
  · rw [hnil]; rfl
  · obtain ⟨t, ht⟩ := List.dropWhile_suffix (l := s) Char.isWhitespace
    rcases hDl : (s.dropWhile Char.isWhitespace).getLast? with - | c
    · exact absurd (List.getLast?_eq_none_iff.mp hDl) hnil
    · have hlast : s.getLast? = some c := by
        rw [← ht, List.getLast?_append, hDl]; rfl
      have hc : c.isWhitespace = false := h c hlast
      have hrev : (s.dropWhile Char.isWhitespace).reverse.head? = some c := by
        rw [List.head?_reverse, hDl]
      rcases hrevE : (s.dropWhile Char.isWhitespace).reverse with - | ⟨r0, rs⟩
      · rw [hrevE] at hrev; simp at hrev
      · rw [hrevE] at hrev
        simp only [List.head?_cons, Option.some.injEq] at hrev
        subst hrev
        rw [List.dropWhile_cons, if_neg (by simp [hc])]
        rw [← hrevE, List.reverse_reverse]

theorem skipWs_append_of_head_digit {ds : Str} (t : Str) (h1 : ds ≠ [])
    (h2 : ds.all Char.isDigit = true) : skipWs (ds ++ t) = ds ++ t := by
  rcases ds with - | ⟨c, cs⟩
  · exact absurd rfl h1
  · simp only [List.all_cons, Bool.and_eq_true] at h2
    simp [skipWs, List.dropWhile_cons, isWhitespace_of_isDigit h2.1]

theorem dropWhile_format_vr (d : DateTimeUtc) :
    (format_vr d).dropWhile Char.isWhitespace = natToChars d.day ++ format_vr_tail d := by
  rw [format_vr_decomp, spacePad2]
  obtain ⟨c, cs, hc, hdg⟩ := natToChars_head_digit d.day
  by_cases h : d.day < 10
  · rw [if_pos h, hc]
    simp [List.dropWhile_cons, isWhitespace_of_isDigit hdg]
  · rw [if_neg h, hc]
    simp [List.dropWhile_cons, isWhitespace_of_isDigit hdg]

theorem rustTrim_format_vr (d : DateTimeUtc) :
    rustTrim (format_vr d) = natToChars d.day ++ format_vr_tail d := by
  rw [rustTrim_eq_dropWhile, dropWhile_format_vr]
  intro c hc
  rw [format_vr_decomp, List.getLast?_append, format_vr_tail_getLast d] at hc
  simp only [Option.or_some, Option.some.injEq] at hc
  subst hc
  decide

theorem expectChar_cons_self (c : Char) (rest : Str) : expectChar c (c :: rest) = some rest := by
  simp [expectChar]

theorem parse_vr_round (d : DateTimeUtc) (hd1 : 1 ≤ d.day) (hd2 : d.day ≤ 31)
    (hm1 : 1 ≤ d.month) (hm2 : d.month ≤ 12) (hy : d.year ≤ 9999) (hh : d.hour ≤ 23)
    (hmin : d.minute ≤ 59) (hsec : d.second ≤ 59) :
    parse_vr (rustTrim (format_vr d)) =
      some ⟨d.year, d.month, d.day, d.hour, d.minute, d.second, 0⟩ := by
  obtain ⟨a, b, c3, habc, hab⟩ := monthAbbrev_round d.month hm1 hm2
  rw [rustTrim_format_vr, format_vr_tail, habc]
  have e0 : skipWs (natToChars d.day ++ '-' :: a :: b :: c3 :: '-' :: (pad4 d.year ++ ' ' ::
      (pad2 (hour12 d.hour) ++ ':' :: (pad2 d.minute ++ ':' ::
        (pad2 d.second ++ ' ' :: meridiem d.hour))))) =
      natToChars d.day ++ '-' :: a :: b :: c3 :: '-' :: (pad4 d.year ++ ' ' ::
      (pad2 (hour12 d.hour) ++ ':' :: (pad2 d.minute ++ ':' ::
        (pad2 d.second ++ ' ' :: meridiem d.hour)))) :=
    skipWs_append_of_head_digit _ (natToChars_ne_nil _) (natToChars_all_digits _)
  have e1 : readNum 2 (natToChars d.day ++ '-' :: a :: b :: c3 :: '-' :: (pad4 d.year ++ ' ' ::
      (pad2 (hour12 d.hour) ++ ':' :: (pad2 d.minute ++ ':' ::
        (pad2 d.second ++ ' ' :: meridiem d.hour))))) =
      some (d.day, '-' :: a :: b :: c3 :: '-' :: (pad4 d.year ++ ' ' ::
      (pad2 (hour12 d.hour) ++ ':' :: (pad2 d.minute ++ ':' ::
        (pad2 d.second ++ ' ' :: meridiem d.hour))))) := by
    rw [readNum_digits (natToChars_ne_nil _) (natToChars_all_digits _)
      (natToChars_length_le 2 d.day (by omega) (by omega)) (by decide),
      digitsVal_natToChars]
  have e2 : skipWs (pad4 d.year ++ ' ' :: (pad2 (hour12 d.hour) ++ ':' :: (pad2 d.minute ++
      ':' :: (pad2 d.second ++ ' ' :: meridiem d.hour)))) =
      pad4 d.year ++ ' ' :: (pad2 (hour12 d.hour) ++ ':' :: (pad2 d.minute ++
      ':' :: (pad2 d.second ++ ' ' :: meridiem d.hour))) :=
    skipWs_append_of_head_digit _ (pad4_ne_nil _) (pad4_all_digits _)
  have e3 : readNum 4 (pad4 d.year ++ ' ' :: (pad2 (hour12 d.hour) ++ ':' :: (pad2 d.minute ++
      ':' :: (pad2 d.second ++ ' ' :: meridiem d.hour)))) =
      some (d.year, ' ' :: (pad2 (hour12 d.hour) ++ ':' :: (pad2 d.minute ++
      ':' :: (pad2 d.second ++ ' ' :: meridiem d.hour)))) := by
    rw [readNum_digits (pad4_ne_nil _) (pad4_all_digits _) (by rw [pad4_length hy])
      (by decide), digitsVal_pad4]
  have e4 : skipWs (pad2 (hour12 d.hour) ++ ':' :: (pad2 d.minute ++
      ':' :: (pad2 d.second ++ ' ' :: meridiem d.hour))) =
      pad2 (hour12 d.hour) ++ ':' :: (pad2 d.minute ++
      ':' :: (pad2 d.second ++ ' ' :: meridiem d.hour)) :=
    skipWs_append_of_head_digit _ (pad2_ne_nil _) (pad2_all_digits _)
  have e5 : readNum 2 (pad2 (hour12 d.hour) ++ ':' :: (pad2 d.minute ++
      ':' :: (pad2 d.second ++ ' ' :: meridiem d.hour))) =
      some (hour12 d.hour, ':' :: (pad2 d.minute ++
      ':' :: (pad2 d.second ++ ' ' :: meridiem d.hour))) := by
    rw [readNum_digits (pad2_ne_nil _) (pad2_all_digits _)
      (by rw [pad2_length (by have := hour12_bounds d.hour; omega)]) (by decide),
      digitsVal_pad2]
  have e6 : skipWs (pad2 d.minute ++ ':' :: (pad2 d.second ++ ' ' :: meridiem d.hour)) =
      pad2 d.minute ++ ':' :: (pad2 d.second ++ ' ' :: meridiem d.hour) :=
    skipWs_append_of_head_digit _ (pad2_ne_nil _) (pad2_all_digits _)
  have e7 : readNum 2 (pad2 d.minute ++ ':' :: (pad2 d.second ++ ' ' :: meridiem d.hour)) =
      some (d.minute, ':' :: (pad2 d.second ++ ' ' :: meridiem d.hour)) := by
    rw [readNum_digits (pad2_ne_nil _) (pad2_all_digits _)
      (by rw [pad2_length (by omega)]) (by decide), digitsVal_pad2]
  have e8 : skipWs (pad2 d.second ++ ' ' :: meridiem d.hour) =
      pad2 d.second ++ ' ' :: meridiem d.hour :=
    skipWs_append_of_head_digit _ (pad2_ne_nil _) (pad2_all_digits _)
  have e9 : readNum 2 (pad2 d.second ++ ' ' :: meridiem d.hour) =
      some (d.second, ' ' :: meridiem d.hour) := by
    rw [readNum_digits (pad2_ne_nil _) (pad2_all_digits _)
      (by rw [pad2_length (by omega)]) (by decide), digitsVal_pad2]
  have hb := hour12_bounds d.hour
  have hrec := hour12_reconstruct hh
  by_cases hmer : d.hour < 12
  · have e10 : meridiem d.hour = ['A', 'M'] := by rw [meridiem, if_pos hmer]
    rw [if_pos hmer] at hrec
    rw [parse_vr]
    simp only [List.cons_append, List.nil_append]
    simp only [e0, e1, e2, e3, e4, e5, e6, e7, e8, e9, Option.bind_eq_bind,
      Option.some_bind, expectChar_cons_self, hab, skipWs_space]
    rw [e10]
    simp only [show skipWs ['A', 'M'] = ['A', 'M'] from by decide,
      show readMeridiem ['A', 'M'] = some (false, []) from by decide, Option.bind_eq_bind,
      Option.some_bind]
    have hcond : True ∧ 1 ≤ d.day ∧ d.day ≤ 31 ∧ 1 ≤ hour12 d.hour ∧ hour12 d.hour ≤ 12 ∧
        d.minute ≤ 59 ∧ d.second ≤ 59 := ⟨trivial, hd1, hd2, hb.1, hb.2, hmin, hsec⟩
    rw [if_pos hcond]
    have hrec2 : hour12 d.hour % 12 = d.hour := by simpa using hrec
    simp [hrec2]
  · have e10 : meridiem d.hour = ['P', 'M'] := by rw [meridiem, if_neg hmer]
    rw [if_neg hmer] at hrec
    rw [parse_vr]
    simp only [List.cons_append, List.nil_append]
    simp only [e0, e1, e2, e3, e4, e5, e6, e7, e8, e9, Option.bind_eq_bind,
      Option.some_bind, expectChar_cons_self, hab, skipWs_space]
    rw [e10]
    simp only [show skipWs ['P', 'M'] = ['P', 'M'] from by decide,
      show readMeridiem ['P', 'M'] = some (true, []) from by decide, Option.bind_eq_bind,
      Option.some_bind]
    have hcond : True ∧ 1 ≤ d.day ∧ d.day ≤ 31 ∧ 1 ≤ hour12 d.hour ∧ hour12 d.hour ≤ 12 ∧
        d.minute ≤ 59 ∧ d.second ≤ 59 := ⟨trivial, hd1, hd2, hb.1, hb.2, hmin, hsec⟩
    rw [if_pos hcond]
    simp [hrec]

/-! ### Lemmas about line and separator structure -/

theorem splitOn_newline_append {line rest : Str} (h : '\n' ∉ line) :
    (line ++ '\n' :: rest).splitOn '\n' = line :: rest.splitOn '\n' := by
  show List.splitOnP (· == '\n') (line ++ '\n' :: rest) = line :: List.splitOnP (· == '\n') rest
  refine List.splitOnP_first _ _ ?_ '\n' (by simp) rest
  intro x hx
  simp only [beq_iff_eq]
  intro he
  exact h (he ▸ hx)

theorem joinSep_splitOn_newline (l : Str) : joinSep "\n".data (l.splitOn '\n') = l := by
  show List.intercalate ['\n'] (l.splitOn '\n') = l
  exact List.intercalate_splitOn l '\n'

theorem splitOn_eq_single {c : Char} {l : Str} (h : c ∉ l) : l.splitOn c = [l] := by
  show List.splitOnP (· == c) l = [l]
  refine List.splitOnP_eq_single _ _ ?_
  intro x hx
  simp only [beq_iff_eq]
  intro he
  exact h (he ▸ hx)

theorem splitOn_comma_append {t rest : Str} (h : ',' ∉ t) :
    (t ++ ',' :: rest).splitOn ',' = t :: rest.splitOn ',' := by
  show List.splitOnP (· == ',') (t ++ ',' :: rest) = t :: List.splitOnP (· == ',') rest
  refine List.splitOnP_first _ _ ?_ ',' (by simp) rest
  intro x hx
  simp only [beq_iff_eq]
  intro he
  exact h (he ▸ hx)

theorem not_mem_of_all_digits {c : Char} (hc : c.isDigit = false) {l : Str}
    (h : l.all Char.isDigit = true) : c ∉ l := by
  intro hm
  have := List.all_eq_true.mp h c hm
  rw [hc] at this
  exact Bool.false_ne_true this

theorem findCS_of_no_colon : ∀ {l : Str}, ':' ∉ l → findCS l = none := by
  intro l
  induction l with
  | nil => intro _; rfl
  | cons c l' ih =>
    intro h
    have hc : c ≠ ':' := fun he => h (he ▸ List.mem_cons_self c l')
    have ht : ':' ∉ l' := fun hm => h (List.mem_cons_of_mem c hm)
    rcases l' with - | ⟨x, xs⟩
    · rfl
    · simp only [findCS]
      rw [if_neg (by simp [hc]), ih ht]

theorem findCS_append_no_colon : ∀ {a : Str}, ':' ∉ a → ∀ {b : Str}, findCS b = none →
    findCS (a ++ b) = none := by
  intro a
  induction a with
  | nil => intro _ b hb; simpa using hb
  | cons c a' ih =>
    intro ha b hb
    have hc : c ≠ ':' := fun he => ha (he ▸ List.mem_cons_self c a')
    have ht : findCS (a' ++ b) = none := ih (fun hm => ha (List.mem_cons_of_mem c hm)) hb
    rw [List.cons_append]
    rcases hE : a' ++ b with - | ⟨x, xs⟩
    · rfl
    · rw [hE] at ht
      simp only [findCS]
      rw [if_neg (by simp [hc]), ht]

theorem findCS_cons {c : Char} {X : Str} (h1 : findCS X = none)
    (h2 : ¬(c = ':' ∧ X.head? = some ' ')) : findCS (c :: X) = none := by
  rcases X with - | ⟨x, xs⟩
  · rfl
  · have hx : ¬(c = ':' ∧ x = ' ') := by simpa using h2
    simp only [findCS]
    rw [if_neg hx, h1]

theorem findCS_key : ∀ {k : Str}, ':' ∉ k → ∀ (v : Str),
    findCS (k ++ ':' :: ' ' :: v) = some (k, v) := by
  intro k
  induction k with
  | nil => intro _ v; simp [findCS]
  | cons c k' ih =>
    intro hk v
    have hc : c ≠ ':' := fun he => hk (he ▸ List.mem_cons_self c k')
    have ht := ih (fun hm => hk (List.mem_cons_of_mem c hm)) v
    rw [List.cons_append]
    rcases hE : k' ++ ':' :: ' ' :: v with - | ⟨x, xs⟩
    · exact absurd hE (by simp)
    · rw [hE] at ht
      simp only [findCS]
      rw [if_neg (by simp [hc]), ht]

theorem splitFirstSegment_of_none {v : Str} (hv : findCS v = none) :
    splitFirstSegment v = v := by
  unfold splitFirstSegment
  rw [hv]

theorem headerPair_key (k : Str) (hk : ':' ∉ k) {v : Str} (hv : findCS v = none) :
    headerPairOfLine (k ++ ':' :: ' ' :: v) = .ok (k, v) := by
  simp [headerPairOfLine, findCS_key hk, splitFirstSegment_of_none hv]

theorem no_colon_of_all_digits {l : Str} (h : l.all Char.isDigit = true) : ':' ∉ l :=
  not_mem_of_all_digits (by decide) h

theorem noNL_of_all_digits {l : Str} (h : l.all Char.isDigit = true) : '\n' ∉ l :=
  not_mem_of_all_digits (by decide) h

theorem monthAbbrev_no_colon (m : Nat) : ':' ∉ monthAbbrev m := by
  unfold monthAbbrev
  split <;> decide

theorem monthAbbrev_noNL (m : Nat) : '\n' ∉ monthAbbrev m := by
  unfold monthAbbrev
  split <;> decide

theorem meridiem_findCS (h : Nat) : findCS (meridiem h) = none := by
  rw [meridiem]
  split <;> decide

theorem meridiem_noNL (h : Nat) : '\n' ∉ meridiem h := by
  rw [meridiem]
  split <;> decide

theorem spacePad2_no_colon (n : Nat) : ':' ∉ spacePad2 n := by
  rw [spacePad2]
  split
  · intro h
    rcases List.mem_cons.mp h with h' | h'
    · exact absurd h' (by decide)
    · exact no_colon_of_all_digits (natToChars_all_digits _) h'
  · exact no_colon_of_all_digits (natToChars_all_digits _)

theorem spacePad2_noNL (n : Nat) : '\n' ∉ spacePad2 n := by
  rw [spacePad2]
  split
  · intro h
    rcases List.mem_cons.mp h with h' | h'
    · exact absurd h' (by decide)
    · exact noNL_of_all_digits (natToChars_all_digits _) h'
  · exact noNL_of_all_digits (natToChars_all_digits _)

theorem pad2_head_ne_space (n : Nat) : ∀ {y : Str}, (pad2 n ++ y).head? ≠ some ' ' := by
  obtain ⟨c, cs, hc, hd⟩ := pad2_head_digit n
  intro y
  rw [hc]
  simp only [List.cons_append, List.head?_cons, Option.some.injEq]
  intro he
  have hce : c = ' ' := by injection he
  subst hce
  exact absurd hd (by decide)

theorem findCS_format_vr (d : DateTimeUtc) : findCS (format_vr d) = none := by
  rw [format_vr_decomp, format_vr_tail]
  have m0 := meridiem_findCS d.hour
  have m1 : findCS (' ' :: meridiem d.hour) = none :=
    findCS_cons m0 (fun h => absurd h.1 (by decide))
  have m2 : findCS (pad2 d.second ++ ' ' :: meridiem d.hour) = none :=
    findCS_append_no_colon (no_colon_of_all_digits (pad2_all_digits _)) m1
  have m3 : findCS (':' :: (pad2 d.second ++ ' ' :: meridiem d.hour)) = none :=
    findCS_cons m2 (fun h => absurd h.2 (pad2_head_ne_space _))
  have m4 : findCS (pad2 d.minute ++ ':' :: (pad2 d.second ++ ' ' :: meridiem d.hour)) = none :=
    findCS_append_no_colon (no_colon_of_all_digits (pad2_all_digits _)) m3
  have m5 : findCS (':' :: (pad2 d.minute ++ ':' :: (pad2 d.second ++ ' ' ::
      meridiem d.hour))) = none :=
    findCS_cons m4 (fun h => absurd h.2 (pad2_head_ne_space _))
  have m6 : findCS (pad2 (hour12 d.hour) ++ ':' :: (pad2 d.minute ++ ':' ::
      (pad2 d.second ++ ' ' :: meridiem d.hour))) = none :=
    findCS_append_no_colon (no_colon_of_all_digits (pad2_all_digits _)) m5
  have m7 : findCS (' ' :: (pad2 (hour12 d.hour) ++ ':' :: (pad2 d.minute ++ ':' ::
      (pad2 d.second ++ ' ' :: meridiem d.hour)))) = none :=
    findCS_cons m6 (fun h => absurd h.1 (by decide))
  have m8 : findCS (pad4 d.year ++ ' ' :: (pad2 (hour12 d.hour) ++ ':' :: (pad2 d.minute ++
      ':' :: (pad2 d.second ++ ' ' :: meridiem d.hour)))) = none :=
    findCS_append_no_colon (no_colon_of_all_digits (pad4_all_digits _)) m7
  have m9 : findCS ('-' :: (pad4 d.year ++ ' ' :: (pad2 (hour12 d.hour) ++ ':' ::
      (pad2 d.minute ++ ':' :: (pad2 d.second ++ ' ' :: meridiem d.hour))))) = none :=
    findCS_cons m8 (fun h => absurd h.1 (by decide))
  have m10 : findCS (monthAbbrev d.month ++ '-' :: (pad4 d.year ++ ' ' ::
      (pad2 (hour12 d.hour) ++ ':' :: (pad2 d.minute ++ ':' :: (pad2 d.second ++ ' ' ::
      meridiem d.hour))))) = none :=
    findCS_append_no_colon (monthAbbrev_no_colon _) m9
  have m11 : findCS ('-' :: (monthAbbrev d.month ++ '-' :: (pad4 d.year ++ ' ' ::
      (pad2 (hour12 d.hour) ++ ':' :: (pad2 d.minute ++ ':' :: (pad2 d.second ++ ' ' ::
      meridiem d.hour)))))) = none :=
    findCS_cons m10 (fun h => absurd h.1 (by decide))
  exact findCS_append_no_colon (spacePad2_no_colon _) m11

theorem noNL_format_vr (d : DateTimeUtc) : '\n' ∉ format_vr d := by
  rw [format_vr_decomp, format_vr_tail]
  intro h
  simp only [List.mem_append, List.mem_cons] at h
  rcases h with h | h
  · exact spacePad2_noNL _ h
  rcases h with h | h
  · exact absurd h (by decide)
  rcases h with h | h
  · exact monthAbbrev_noNL _ h
  rcases h with h | h
  · exact absurd h (by decide)
  rcases h with h | h
  · exact noNL_of_all_digits (pad4_all_digits _) h
  rcases h with h | h
  · exact absurd h (by decide)
  rcases h with h | h
  · exact noNL_of_all_digits (pad2_all_digits _) h
  rcases h with h | h
  · exact absurd h (by decide)
  rcases h with h | h
  · exact noNL_of_all_digits (pad2_all_digits _) h
  rcases h with h | h
  · exact absurd h (by decide)
  rcases h with h | h
  · exact noNL_of_all_digits (pad2_all_digits _) h
  rcases h with h | h
  · exact absurd h (by decide)
  · exact meridiem_noNL _ h

/-! ### Lemmas about the comma-space joined lists (tags, people) -/

theorem joinSep_singleton (sep x : Str) : joinSep sep [x] = x := by
  simp [joinSep, List.intercalate]

theorem joinSep_cons_cons (sep x y : Str) (zs : List Str) :
    joinSep sep (x :: y :: zs) = x ++ sep ++ joinSep sep (y :: zs) := by
  simp [joinSep, List.intercalate, List.intersperse]

theorem noNL_joinSep {tags : List Str} (h : ∀ t ∈ tags, '\n' ∉ t) :
    '\n' ∉ joinSep ", ".data tags := by
  induction tags with
  | nil => simp [joinSep, List.intercalate]
  | cons t rest ih =>
    rcases rest with - | ⟨t2, rest'⟩
    · rw [joinSep_singleton]
      exact h t (by simp)
    · rw [joinSep_cons_cons]
      intro hm
      rcases List.mem_append.mp hm with hm | hm
      · rcases List.mem_append.mp hm with hm | hm
        · exact h t (by simp) hm
        · exact absurd hm (by decide)
      · exact ih (fun x hx => h x (List.mem_cons_of_mem _ hx)) hm

theorem findCS_append_gen : ∀ {a : Str}, findCS a = none → ∀ {b : Str}, findCS b = none →
    b.head? ≠ some ' ' → findCS (a ++ b) = none := by
  intro a
  induction a with
  | nil => intro _ b hb _; simpa using hb
  | cons c a' ih =>
    intro ha b hb hbh
    rcases a' with - | ⟨d, a''⟩
    · rcases b with - | ⟨b0, b'⟩
      · rfl
      · refine findCS_cons hb ?_
        rintro ⟨-, hsp⟩
        exact hbh hsp
    · have hinv : ¬(c = ':' ∧ d = ' ') ∧ findCS (d :: a'') = none := by
        by_cases hcd : c = ':' ∧ d = ' '
        · exfalso
          rw [findCS, if_pos hcd] at ha
          exact Option.some_ne_none _ ha
        · refine ⟨hcd, ?_⟩
          rcases hfd : findCS (d :: a'') with - | p
          · rfl
          · exfalso
            rcases p with ⟨k, v⟩
            rw [findCS, if_neg hcd, hfd] at ha
            simp at ha
      have hrec : findCS ((d :: a'') ++ b) = none := ih hinv.2 hb hbh
      rw [List.cons_append]
      refine findCS_cons hrec ?_
      rintro ⟨rfl, hh⟩
      rw [List.cons_append, List.head?_cons] at hh
      have hde : d = ' ' := by injection hh
      exact hinv.1 ⟨rfl, hde⟩

theorem findCS_joinSep {tags : List Str} (h : ∀ t ∈ tags, findCS t = none) :
    findCS (joinSep ", ".data tags) = none := by
  induction tags with
  | nil => rfl
  | cons t rest ih =>
    rcases rest with - | ⟨t2, rest'⟩
    · rw [joinSep_singleton]
      exact h t (by simp)
    · rw [joinSep_cons_cons, List.append_assoc]
      have hJ : findCS (joinSep ", ".data (t2 :: rest')) = none :=
        ih (fun x hx => h x (List.mem_cons_of_mem _ hx))
      have h1 : findCS (' ' :: joinSep ", ".data (t2 :: rest')) = none :=
        findCS_cons hJ (fun hcc => absurd hcc.1 (by decide))
      have h2 : findCS (',' :: ' ' :: joinSep ", ".data (t2 :: rest')) = none :=
        findCS_cons h1 (fun hcc => absurd hcc.1 (by decide))
      exact findCS_append_gen (h t (by simp)) h2 (by simp)

theorem rustTrim_space_cons (x : Str) : rustTrim (' ' :: x) = rustTrim x := by
  simp [rustTrim, List.dropWhile_cons]

theorem tags_round {tags : List Str} (hne : tags ≠ [])
    (h : ∀ t ∈ tags, ',' ∉ t ∧ rustTrim t = t) :
    ((joinSep ", ".data tags).splitOn ',').map rustTrim = tags := by
  induction tags with
  | nil => exact absurd rfl hne
  | cons t rest ih =>
    rcases rest with - | ⟨t2, rest'⟩
    · rw [joinSep_singleton, splitOn_eq_single (h t (by simp)).1]
      simp [(h t (by simp)).2]
    · rw [joinSep_cons_cons, List.append_assoc]
      rw [show ", ".data ++ joinSep ", ".data (t2 :: rest') =
        ',' :: ' ' :: joinSep ", ".data (t2 :: rest') from rfl]
      rw [splitOn_comma_append (h t (by simp)).1]
      have hsp : (' ' :: joinSep ", ".data (t2 :: rest')).splitOn ',' =
          List.modifyHead (List.cons ' ') ((joinSep ", ".data (t2 :: rest')).splitOn ',') := by
        show List.splitOnP _ _ = _
        rw [List.splitOnP_cons, if_neg (by decide)]
        rfl
      rw [List.map_cons, hsp]
      have hJne : (joinSep ", ".data (t2 :: rest')).splitOn ',' ≠ [] :=
        List.splitOnP_ne_nil _ _
      rcases hsplit : (joinSep ", ".data (t2 :: rest')).splitOn ',' with - | ⟨l0, L⟩
      · exact absurd hsplit hJne
      · have ihe := ih (by simp) (fun x hx => h x (List.mem_cons_of_mem _ hx))
        rw [hsplit, List.map_cons] at ihe
        rw [List.modifyHead_cons, List.map_cons, rustTrim_space_cons]
        rw [(h t (by simp)).2]
        exact congrArg (t :: ·) ihe

/-! ### The codec round trip -/

theorem display_noNL (ty : GooseberryEntryType) : '\n' ∉ ty.display := by
  cases ty <;> decide

theorem display_findCS (ty : GooseberryEntryType) : findCS ty.display = none := by
  cases ty <;> decide

theorem boolToChars_noNL (b : Bool) : '\n' ∉ boolToChars b := by
  cases b <;> decide

theorem boolToChars_findCS (b : Bool) : findCS (boolToChars b) = none := by
  cases b <;> decide

theorem parseBool_boolToChars (b : Bool) : parseBool (rustTrim (boolToChars b)) = some b := by
  cases b <;> rfl

theorem noNL_key_append {k v : Str} (hk : '\n' ∉ k) (hv : '\n' ∉ v) : '\n' ∉ k ++ v := by
  intro h
  rcases List.mem_append.mp h with h | h
  exacts [hk h, hv h]

theorem key_append_ne_mark (c : Char) (hc : c ≠ '-') (k v : Str) :
    (c :: k) ++ v ≠ HEADER_MARK := by
  intro h
  rw [List.cons_append, show HEADER_MARK = '-' :: "--".data from rfl] at h
  injection h with h1 _
  exact hc h1

theorem splitOn_newline_append2 {l1 : Str} (h : '\n' ∉ l1) (rest1 X : Str) :
    ((l1 ++ '\n' :: rest1) ++ '\n' :: X).splitOn '\n' =
      l1 :: (rest1 ++ '\n' :: X).splitOn '\n' := by
  rw [List.append_assoc, List.cons_append, splitOn_newline_append h]

theorem fmt_lines (ty : GooseberryEntryType) (id : Nat) (dt : DateTimeUtc) (tags : List Str)
    (X : Str) (htags : ∀ t ∈ tags, '\n' ∉ t) :
    (format_id_datetime_tags ty id dt tags ++ '\n' :: X).splitOn '\n' =
      ("Type: ".data ++ ty.display) :: ("ID: ".data ++ natToChars id) ::
        ("DateTime: ".data ++ format_vr dt) ::
        ("Tags: ".data ++ joinSep ", ".data tags) :: X.splitOn '\n' := by
  rw [format_id_datetime_tags]
  rw [splitOn_newline_append2 (noNL_key_append (by decide) (display_noNL ty))]
  rw [splitOn_newline_append2
    (noNL_key_append (by decide) (noNL_of_all_digits (natToChars_all_digits _)))]
  rw [splitOn_newline_append2 (noNL_key_append (by decide) (noNL_format_vr dt))]
  rw [splitOn_newline_append (noNL_key_append (by decide) (noNL_joinSep htags))]

theorem collect_base (rem : List Str) :
    collectHeaderLines (HEADER_MARK :: rem) = .ok ([], rem) := by
  simp [collectHeaderLines]

theorem collect_build {l : Str} (hl : l ≠ HEADER_MARK) {rest : List Str} {hs rem : List Str}
    (h : collectHeaderLines rest = .ok (hs, rem)) :
    collectHeaderLines (l :: rest) = .ok (l :: hs, rem) := by
  simp only [collectHeaderLines]
  rw [if_neg hl, h]

theorem headerPairs_build {l : Str} {p : Str × Str} (hl : headerPairOfLine l = .ok p)
    {rest : List Str} {ps : List (Str × Str)} (h : headerPairs rest = .ok ps) :
    headerPairs (l :: rest) = .ok (p :: ps) := by
  simp only [headerPairs]
  rw [hl, h]

theorem consume_build {rest : List Str} {hs rem : List Str} {ps : List (Str × Str)}
    (h1 : collectHeaderLines rest = .ok (hs, rem)) (h2 : headerPairs hs = .ok ps) :
    consume_markdown_header (HEADER_MARK :: rest) = .ok (ps, rem) := by
  simp [consume_markdown_header, h1, h2]

theorem get_header_lines_build {content : Str} {ps : List (Str × Str)} {rem : List Str}
    (h : consume_markdown_header (content.splitOn '\n') = .ok (ps, rem)) :
    get_header_lines content = .ok (ps, joinSep "\n".data rem) := by
  simp only [get_header_lines]
  rw [h]

/-- Conditions under which a header field value survives the codec: no
newline (the line structure would break), no `": "` separator (the
header split would truncate it), and trim-stability (the decoder trims
it). -/
def WfField (s : Str) : Prop := '\n' ∉ s ∧ findCS s = none ∧ rustTrim s = s

/-- Conditions under which one tag (or person) survives the comma-space
join and re-split: additionally comma-free. -/
def WfTag (t : Str) : Prop := '\n' ∉ t ∧ ',' ∉ t ∧ findCS t = none ∧ rustTrim t = t

/-- Field ranges of a timestamp representable in the `%v %r` format,
with whole-second precision (the format prints no sub-second part). -/
def WfDateTime (dt : DateTimeUtc) : Prop :=
  1 ≤ dt.day ∧ dt.day ≤ 31 ∧ 1 ≤ dt.month ∧ dt.month ≤ 12 ∧ dt.year ≤ 9999 ∧
    dt.hour ≤ 23 ∧ dt.minute ≤ 59 ∧ dt.second ≤ 59 ∧ dt.nano = 0

/-- Common round-trip conditions: representable id, representable
timestamp, and a nonempty list of well-formed tags (the empty list is
excluded because it encodes to an empty `Tags` value, which decodes to
the one-element list containing the empty string). -/
def WfCommon (id : Nat) (dt : DateTimeUtc) (tags : List Str) : Prop :=
  id < u64Size ∧ WfDateTime dt ∧ tags ≠ [] ∧ ∀ t ∈ tags, WfTag t

/-- The well-formed notes: those for which the codec round trip can
hold at all. -/
def GooseberryEntry.WellFormed : GooseberryEntry → Prop
  | .Task e => WfCommon e.id e.datetime e.tags ∧ WfField e.task
  | .Journal e => WfCommon e.id e.datetime e.tags
  | .Research e => WfCommon e.id e.datetime e.tags ∧ WfField e.title
  | .Event e => WfCommon e.id e.datetime e.tags ∧ WfField e.title ∧
      e.people ≠ [] ∧ ∀ p ∈ e.people, WfTag p

/-- The header pairs produced by decoding an encoded Task. -/
def taskHeaderPairs (e : TaskEntry) : List (Str × Str) :=
  [("Type".data, GooseberryEntryType.Task.display), ("ID".data, natToChars e.id),
   ("DateTime".data, format_vr e.datetime), ("Tags".data, joinSep ", ".data e.tags),
   ("Task".data, e.task), ("Done".data, boolToChars e.done)]

theorem decode_encode_task (e : TaskEntry) (hc : WfCommon e.id e.datetime e.tags)
    (htask : WfField e.task) :
    GooseberryEntry.from_file_string e.to_file_string = .ok (.Task e) := by
  obtain ⟨hid, hdt, htags_ne, htag⟩ := hc
  obtain ⟨hd1, hd2, hm1, hm2, hy, hh, hmin, hsec, hnano⟩ := hdt
  obtain ⟨htk1, htk2, htk3⟩ := htask
  have hlines : (TaskEntry.to_file_string e).splitOn '\n' =
      HEADER_MARK :: ("Type: ".data ++ GooseberryEntryType.Task.display) ::
        ("ID: ".data ++ natToChars e.id) :: ("DateTime: ".data ++ format_vr e.datetime) ::
        ("Tags: ".data ++ joinSep ", ".data e.tags) :: ("Task: ".data ++ e.task) ::
        ("Done: ".data ++ boolToChars e.done) :: HEADER_MARK ::
        e.description.splitOn '\n' := by
    rw [TaskEntry.to_file_string]
    rw [splitOn_newline_append (by decide)]
    rw [fmt_lines _ _ _ _ _ (fun t ht => (htag t ht).1)]
    rw [splitOn_newline_append (noNL_key_append (by decide) htk1)]
    rw [splitOn_newline_append (noNL_key_append (by decide) (boolToChars_noNL e.done))]
    rw [splitOn_newline_append (by decide)]
  have hcoll : collectHeaderLines (("Type: ".data ++ GooseberryEntryType.Task.display) ::
      ("ID: ".data ++ natToChars e.id) :: ("DateTime: ".data ++ format_vr e.datetime) ::
      ("Tags: ".data ++ joinSep ", ".data e.tags) :: ("Task: ".data ++ e.task) ::
      ("Done: ".data ++ boolToChars e.done) :: HEADER_MARK ::
      e.description.splitOn '\n') =
      .ok ([("Type: ".data ++ GooseberryEntryType.Task.display),
        ("ID: ".data ++ natToChars e.id), ("DateTime: ".data ++ format_vr e.datetime),
        ("Tags: ".data ++ joinSep ", ".data e.tags), ("Task: ".data ++ e.task),
        ("Done: ".data ++ boolToChars e.done)], e.description.splitOn '\n') :=
    collect_build (key_append_ne_mark 'T' (by decide) _ _)
      (collect_build (key_append_ne_mark 'I' (by decide) _ _)
        (collect_build (key_append_ne_mark 'D' (by decide) _ _)
          (collect_build (key_append_ne_mark 'T' (by decide) _ _)
            (collect_build (key_append_ne_mark 'T' (by decide) _ _)
              (collect_build (key_append_ne_mark 'D' (by decide) _ _)
                (collect_base _))))))
  have hpairs : headerPairs [("Type: ".data ++ GooseberryEntryType.Task.display),
      ("ID: ".data ++ natToChars e.id), ("DateTime: ".data ++ format_vr e.datetime),
      ("Tags: ".data ++ joinSep ", ".data e.tags), ("Task: ".data ++ e.task),
      ("Done: ".data ++ boolToChars e.done)] = .ok (taskHeaderPairs e) :=
    headerPairs_build (headerPair_key "Type".data (by decide) (display_findCS _))
      (headerPairs_build (headerPair_key "ID".data (by decide)
          (findCS_of_no_colon (no_colon_of_all_digits (natToChars_all_digits _))))
        (headerPairs_build (headerPair_key "DateTime".data (by decide) (findCS_format_vr _))
          (headerPairs_build (headerPair_key "Tags".data (by decide)
              (findCS_joinSep (fun t ht => (htag t ht).2.2.1)))
            (headerPairs_build (headerPair_key "Task".data (by decide) htk2)
              (headerPairs_build (headerPair_key "Done".data (by decide)
                  (boolToChars_findCS _))
                (show headerPairs [] = .ok [] from rfl))))))
  have hghl : get_header_lines (TaskEntry.to_file_string e) =
      .ok (taskHeaderPairs e, e.description) := by
    have hb : get_header_lines (TaskEntry.to_file_string e) =
        .ok (taskHeaderPairs e, joinSep "\n".data (e.description.splitOn '\n')) :=
      get_header_lines_build (by rw [hlines]; exact consume_build hcoll hpairs)
    rwa [joinSep_splitOn_newline] at hb
  have hdtEq : (⟨e.datetime.year, e.datetime.month, e.datetime.day, e.datetime.hour,
      e.datetime.minute, e.datetime.second, 0⟩ : DateTimeUtc) = e.datetime := by
    rw [← hnano]
  have hidt : get_id_datetime_tags (taskHeaderPairs e) = .ok (e.id, e.datetime, e.tags) := by
    simp only [get_id_datetime_tags,
      show hmGet (taskHeaderPairs e) "ID".data = some (natToChars e.id) from rfl,
      parseU64_natToChars hid,
      show hmGet (taskHeaderPairs e) "DateTime".data = some (format_vr e.datetime) from rfl,
      parse_vr_round e.datetime hd1 hd2 hm1 hm2 hy hh hmin hsec,
      show hmGet (taskHeaderPairs e) "Tags".data =
        some (joinSep ", ".data e.tags) from rfl]
    rw [tags_round htags_ne (fun t ht => ⟨(htag t ht).2.1, (htag t ht).2.2.2⟩), hdtEq]
  simp only [GooseberryEntry.from_file_string, hghl]
  simp only [GooseberryEntry.from_header_lines,
    show hmGet (taskHeaderPairs e) "Type".data =
      some GooseberryEntryType.Task.display from rfl,
    show GooseberryEntryType.from_str GooseberryEntryType.Task.display =
      .ok .Task from rfl]
  simp only [TaskEntry.from_header_lines, hidt,
    show hmGet (taskHeaderPairs e) "Task".data = some e.task from rfl,
    show hmGet (taskHeaderPairs e) "Done".data = some (boolToChars e.done) from rfl,
    parseBool_boolToChars e.done]
  rw [htk3]

/-- The header pairs produced by decoding an encoded Journal entry. -/
def journalHeaderPairs (e : JournalEntry) : List (Str × Str) :=
  [("Type".data, GooseberryEntryType.Journal.display), ("ID".data, natToChars e.id),
   ("DateTime".data, format_vr e.datetime), ("Tags".data, joinSep ", ".data e.tags)]

theorem decode_encode_journal (e : JournalEntry) (hc : WfCommon e.id e.datetime e.tags) :
    GooseberryEntry.from_file_string e.to_file_string = .ok (.Journal e) := by
  obtain ⟨hid, hdt, htags_ne, htag⟩ := hc
  obtain ⟨hd1, hd2, hm1, hm2, hy, hh, hmin, hsec, hnano⟩ := hdt
  have hlines : (JournalEntry.to_file_string e).splitOn '\n' =
      HEADER_MARK :: ("Type: ".data ++ GooseberryEntryType.Journal.display) ::
        ("ID: ".data ++ natToChars e.id) :: ("DateTime: ".data ++ format_vr e.datetime) ::
        ("Tags: ".data ++ joinSep ", ".data e.tags) :: HEADER_MARK ::
        e.description.splitOn '\n' := by
    rw [JournalEntry.to_file_string]
    rw [splitOn_newline_append (by decide)]
    rw [fmt_lines _ _ _ _ _ (fun t ht => (htag t ht).1)]
    rw [splitOn_newline_append (by decide)]
  have hcoll : collectHeaderLines (("Type: ".data ++ GooseberryEntryType.Journal.display) ::
      ("ID: ".data ++ natToChars e.id) :: ("DateTime: ".data ++ format_vr e.datetime) ::
      ("Tags: ".data ++ joinSep ", ".data e.tags) :: HEADER_MARK ::
      e.description.splitOn '\n') =
      .ok ([("Type: ".data ++ GooseberryEntryType.Journal.display),
        ("ID: ".data ++ natToChars e.id), ("DateTime: ".data ++ format_vr e.datetime),
        ("Tags: ".data ++ joinSep ", ".data e.tags)], e.description.splitOn '\n') :=
    collect_build (key_append_ne_mark 'T' (by decide) _ _)
      (collect_build (key_append_ne_mark 'I' (by decide) _ _)
        (collect_build (key_append_ne_mark 'D' (by decide) _ _)
          (collect_build (key_append_ne_mark 'T' (by decide) _ _)
            (collect_base _))))
  have hpairs : headerPairs [("Type: ".data ++ GooseberryEntryType.Journal.display),
      ("ID: ".data ++ natToChars e.id), ("DateTime: ".data ++ format_vr e.datetime),
      ("Tags: ".data ++ joinSep ", ".data e.tags)] = .ok (journalHeaderPairs e) :=
    headerPairs_build (headerPair_key "Type".data (by decide) (display_findCS _))
      (headerPairs_build (headerPair_key "ID".data (by decide)
          (findCS_of_no_colon (no_colon_of_all_digits (natToChars_all_digits _))))
        (headerPairs_build (headerPair_key "DateTime".data (by decide) (findCS_format_vr _))
          (headerPairs_build (headerPair_key "Tags".data (by decide)
              (findCS_joinSep (fun t ht => (htag t ht).2.2.1)))
            (show headerPairs [] = .ok [] from rfl))))
  have hghl : get_header_lines (JournalEntry.to_file_string e) =
      .ok (journalHeaderPairs e, e.description) := by
    have hb : get_header_lines (JournalEntry.to_file_string e) =
        .ok (journalHeaderPairs e, joinSep "\n".data (e.description.splitOn '\n')) :=
      get_header_lines_build (by rw [hlines]; exact consume_build hcoll hpairs)
    rwa [joinSep_splitOn_newline] at hb
  have hdtEq : (⟨e.datetime.year, e.datetime.month, e.datetime.day, e.datetime.hour,
      e.datetime.minute, e.datetime.second, 0⟩ : DateTimeUtc) = e.datetime := by
    rw [← hnano]
  have hidt : get_id_datetime_tags (journalHeaderPairs e) =
      .ok (e.id, e.datetime, e.tags) := by
    simp only [get_id_datetime_tags,
      show hmGet (journalHeaderPairs e) "ID".data = some (natToChars e.id) from rfl,
      parseU64_natToChars hid,
      show hmGet (journalHeaderPairs e) "DateTime".data =
        some (format_vr e.datetime) from rfl,
      parse_vr_round e.datetime hd1 hd2 hm1 hm2 hy hh hmin hsec,
      show hmGet (journalHeaderPairs e) "Tags".data =
        some (joinSep ", ".data e.tags) from rfl]
    rw [tags_round htags_ne (fun t ht => ⟨(htag t ht).2.1, (htag t ht).2.2.2⟩), hdtEq]
  simp only [GooseberryEntry.from_file_string, hghl]
  simp only [GooseberryEntry.from_header_lines,
    show hmGet (journalHeaderPairs e) "Type".data =
      some GooseberryEntryType.Journal.display from rfl,
    show GooseberryEntryType.from_str GooseberryEntryType.Journal.display =
      .ok .Journal from rfl]
  simp only [JournalEntry.from_header_lines, hidt]

/-- The header pairs produced by decoding an encoded Research entry. -/
def researchHeaderPairs (e : ResearchEntry) : List (Str × Str) :=
  [("Type".data, GooseberryEntryType.Research.display), ("ID".data, natToChars e.id),
   ("DateTime".data, format_vr e.datetime), ("Tags".data, joinSep ", ".data e.tags),
   ("Title".data, e.title)]

theorem decode_encode_research (e : ResearchEntry) (hc : WfCommon e.id e.datetime e.tags)
    (htitle : WfField e.title) :
    GooseberryEntry.from_file_string e.to_file_string = .ok (.Research e) := by
  obtain ⟨hid, hdt, htags_ne, htag⟩ := hc
  obtain ⟨hd1, hd2, hm1, hm2, hy, hh, hmin, hsec, hnano⟩ := hdt
  obtain ⟨htl1, htl2, htl3⟩ := htitle
  have hlines : (ResearchEntry.to_file_string e).splitOn '\n' =
      HEADER_MARK :: ("Type: ".data ++ GooseberryEntryType.Research.display) ::
        ("ID: ".data ++ natToChars e.id) :: ("DateTime: ".data ++ format_vr e.datetime) ::
        ("Tags: ".data ++ joinSep ", ".data e.tags) :: ("Title: ".data ++ e.title) ::
        HEADER_MARK :: e.notes.splitOn '\n' := by
    rw [ResearchEntry.to_file_string]
    rw [splitOn_newline_append (by decide)]
    rw [fmt_lines _ _ _ _ _ (fun t ht => (htag t ht).1)]
    rw [splitOn_newline_append (noNL_key_append (by decide) htl1)]
    rw [splitOn_newline_append (by decide)]
  have hcoll : collectHeaderLines (("Type: ".data ++
      GooseberryEntryType.Research.display) ::
      ("ID: ".data ++ natToChars e.id) :: ("DateTime: ".data ++ format_vr e.datetime) ::
      ("Tags: ".data ++ joinSep ", ".data e.tags) :: ("Title: ".data ++ e.title) ::
      HEADER_MARK :: e.notes.splitOn '\n') =
      .ok ([("Type: ".data ++ GooseberryEntryType.Research.display),
        ("ID: ".data ++ natToChars e.id), ("DateTime: ".data ++ format_vr e.datetime),
        ("Tags: ".data ++ joinSep ", ".data e.tags), ("Title: ".data ++ e.title)],
        e.notes.splitOn '\n') :=
    collect_build (key_append_ne_mark 'T' (by decide) _ _)
      (collect_build (key_append_ne_mark 'I' (by decide) _ _)
        (collect_build (key_append_ne_mark 'D' (by decide) _ _)
          (collect_build (key_append_ne_mark 'T' (by decide) _ _)
            (collect_build (key_append_ne_mark 'T' (by decide) _ _)
              (collect_base _)))))
  have hpairs : headerPairs [("Type: ".data ++ GooseberryEntryType.Research.display),
      ("ID: ".data ++ natToChars e.id), ("DateTime: ".data ++ format_vr e.datetime),
      ("Tags: ".data ++ joinSep ", ".data e.tags), ("Title: ".data ++ e.title)] =
      .ok (researchHeaderPairs e) :=
    headerPairs_build (headerPair_key "Type".data (by decide) (display_findCS _))
      (headerPairs_build (headerPair_key "ID".data (by decide)
          (findCS_of_no_colon (no_colon_of_all_digits (natToChars_all_digits _))))
        (headerPairs_build (headerPair_key "DateTime".data (by decide) (findCS_format_vr _))
          (headerPairs_build (headerPair_key "Tags".data (by decide)
              (findCS_joinSep (fun t ht => (htag t ht).2.2.1)))
            (headerPairs_build (headerPair_key "Title".data (by decide) htl2)
              (show headerPairs [] = .ok [] from rfl)))))
  have hghl : get_header_lines (ResearchEntry.to_file_string e) =
      .ok (researchHeaderPairs e, e.notes) := by
    have hb : get_header_lines (ResearchEntry.to_file_string e) =
        .ok (researchHeaderPairs e, joinSep "\n".data (e.notes.splitOn '\n')) :=
      get_header_lines_build (by rw [hlines]; exact consume_build hcoll hpairs)
    rwa [joinSep_splitOn_newline] at hb
  have hdtEq : (⟨e.datetime.year, e.datetime.month, e.datetime.day, e.datetime.hour,
      e.datetime.minute, e.datetime.second, 0⟩ : DateTimeUtc) = e.datetime := by
    rw [← hnano]
  have hidt : get_id_datetime_tags (researchHeaderPairs e) =
      .ok (e.id, e.datetime, e.tags) := by
    simp only [get_id_datetime_tags,
      show hmGet (researchHeaderPairs e) "ID".data = some (natToChars e.id) from rfl,
      parseU64_natToChars hid,
      show hmGet (researchHeaderPairs e) "DateTime".data =
        some (format_vr e.datetime) from rfl,
      parse_vr_round e.datetime hd1 hd2 hm1 hm2 hy hh hmin hsec,
      show hmGet (researchHeaderPairs e) "Tags".data =
        some (joinSep ", ".data e.tags) from rfl]
    rw [tags_round htags_ne (fun t ht => ⟨(htag t ht).2.1, (htag t ht).2.2.2⟩), hdtEq]
  simp only [GooseberryEntry.from_file_string, hghl]
  simp only [GooseberryEntry.from_header_lines,
    show hmGet (researchHeaderPairs e) "Type".data =
      some GooseberryEntryType.Research.display from rfl,
    show GooseberryEntryType.from_str GooseberryEntryType.Research.display =
      .ok .Research from rfl]
  simp only [ResearchEntry.from_header_lines, hidt,
    show hmGet (researchHeaderPairs e) "Title".data = some e.title from rfl]
  rw [htl3]

/-- The header pairs produced by decoding an encoded Event entry. -/
def eventHeaderPairs (e : EventEntry) : List (Str × Str) :=
  [("Type".data, GooseberryEntryType.Event.display), ("ID".data, natToChars e.id),
   ("DateTime".data, format_vr e.datetime), ("Tags".data, joinSep ", ".data e.tags),
   ("Title".data, e.title), ("People".data, joinSep ", ".data e.people)]

theorem decode_encode_event (e : EventEntry) (hc : WfCommon e.id e.datetime e.tags)
    (htitle : WfField e.title) (hppl_ne : e.people ≠ []) (hppl : ∀ p ∈ e.people, WfTag p) :
    GooseberryEntry.from_file_string e.to_file_string = .ok (.Event e) := by
  obtain ⟨hid, hdt, htags_ne, htag⟩ := hc
  obtain ⟨hd1, hd2, hm1, hm2, hy, hh, hmin, hsec, hnano⟩ := hdt
  obtain ⟨htl1, htl2, htl3⟩ := htitle
  have hlines : (EventEntry.to_file_string e).splitOn '\n' =
      HEADER_MARK :: ("Type: ".data ++ GooseberryEntryType.Event.display) ::
        ("ID: ".data ++ natToChars e.id) :: ("DateTime: ".data ++ format_vr e.datetime) ::
        ("Tags: ".data ++ joinSep ", ".data e.tags) :: ("Title: ".data ++ e.title) ::
        ("People: ".data ++ joinSep ", ".data e.people) :: HEADER_MARK ::
        e.notes.splitOn '\n' := by
    rw [EventEntry.to_file_string]
    rw [splitOn_newline_append (by decide)]
    rw [fmt_lines _ _ _ _ _ (fun t ht => (htag t ht).1)]
    rw [splitOn_newline_append (noNL_key_append (by decide) htl1)]
    rw [splitOn_newline_append (noNL_key_append (by decide)
      (noNL_joinSep (fun p hp => (hppl p hp).1)))]
    rw [splitOn_newline_append (by decide)]
  have hcoll : collectHeaderLines (("Type: ".data ++ GooseberryEntryType.Event.display) ::
      ("ID: ".data ++ natToChars e.id) :: ("DateTime: ".data ++ format_vr e.datetime) ::
      ("Tags: ".data ++ joinSep ", ".data e.tags) :: ("Title: ".data ++ e.title) ::
      ("People: ".data ++ joinSep ", ".data e.people) :: HEADER_MARK ::
      e.notes.splitOn '\n') =
      .ok ([("Type: ".data ++ GooseberryEntryType.Event.display),
        ("ID: ".data ++ natToChars e.id), ("DateTime: ".data ++ format_vr e.datetime),
        ("Tags: ".data ++ joinSep ", ".data e.tags), ("Title: ".data ++ e.title),
        ("People: ".data ++ joinSep ", ".data e.people)], e.notes.splitOn '\n') :=
    collect_build (key_append_ne_mark 'T' (by decide) _ _)
      (collect_build (key_append_ne_mark 'I' (by decide) _ _)
        (collect_build (key_append_ne_mark 'D' (by decide) _ _)
          (collect_build (key_append_ne_mark 'T' (by decide) _ _)
            (collect_build (key_append_ne_mark 'T' (by decide) _ _)
              (collect_build (key_append_ne_mark 'P' (by decide) _ _)
                (collect_base _))))))
  have hpairs : headerPairs [("Type: ".data ++ GooseberryEntryType.Event.display),
      ("ID: ".data ++ natToChars e.id), ("DateTime: ".data ++ format_vr e.datetime),
      ("Tags: ".data ++ joinSep ", ".data e.tags), ("Title: ".data ++ e.title),
      ("People: ".data ++ joinSep ", ".data e.people)] = .ok (eventHeaderPairs e) :=
    headerPairs_build (headerPair_key "Type".data (by decide) (display_findCS _))
      (headerPairs_build (headerPair_key "ID".data (by decide)
          (findCS_of_no_colon (no_colon_of_all_digits (natToChars_all_digits _))))
        (headerPairs_build (headerPair_key "DateTime".data (by decide) (findCS_format_vr _))
          (headerPairs_build (headerPair_key "Tags".data (by decide)
              (findCS_joinSep (fun t ht => (htag t ht).2.2.1)))
            (headerPairs_build (headerPair_key "Title".data (by decide) htl2)
              (headerPairs_build (headerPair_key "People".data (by decide)
                  (findCS_joinSep (fun p hp => (hppl p hp).2.2.1)))
                (show headerPairs [] = .ok [] from rfl))))))
  have hghl : get_header_lines (EventEntry.to_file_string e) =
      .ok (eventHeaderPairs e, e.notes) := by
    have hb : get_header_lines (EventEntry.to_file_string e) =
        .ok (eventHeaderPairs e, joinSep "\n".data (e.notes.splitOn '\n')) :=
      get_header_lines_build (by rw [hlines]; exact consume_build hcoll hpairs)
    rwa [joinSep_splitOn_newline] at hb
  have hdtEq : (⟨e.datetime.year, e.datetime.month, e.datetime.day, e.datetime.hour,
      e.datetime.minute, e.datetime.second, 0⟩ : DateTimeUtc) = e.datetime := by
    rw [← hnano]
  have hidt : get_id_datetime_tags (eventHeaderPairs e) =
      .ok (e.id, e.datetime, e.tags) := by
    simp only [get_id_datetime_tags,
      show hmGet (eventHeaderPairs e) "ID".data = some (natToChars e.id) from rfl,
      parseU64_natToChars hid,
      show hmGet (eventHeaderPairs e) "DateTime".data =
        some (format_vr e.datetime) from rfl,
      parse_vr_round e.datetime hd1 hd2 hm1 hm2 hy hh hmin hsec,
      show hmGet (eventHeaderPairs e) "Tags".data =
        some (joinSep ", ".data e.tags) from rfl]
    rw [tags_round htags_ne (fun t ht => ⟨(htag t ht).2.1, (htag t ht).2.2.2⟩), hdtEq]
  simp only [GooseberryEntry.from_file_string, hghl]
  simp only [GooseberryEntry.from_header_lines,
    show hmGet (eventHeaderPairs e) "Type".data =
      some GooseberryEntryType.Event.display from rfl,
    show GooseberryEntryType.from_str GooseberryEntryType.Event.display =
      .ok .Event from rfl]
  simp only [EventEntry.from_header_lines, hidt,
    show hmGet (eventHeaderPairs e) "Title".data = some e.title from rfl,
    show hmGet (eventHeaderPairs e) "People".data =
      some (joinSep ", ".data e.people) from rfl]
  rw [htl3, tags_round hppl_ne (fun p hp => ⟨(hppl p hp).2.1, (hppl p hp).2.2.2⟩)]

/-- C1 (amended): the codec round trip `decode (encode n) = n` holds
for every well-formed note of any of the four variants: fields with no
newline and no `": "` separator that are trim-stable, a NONEMPTY tag
list of comma-free trim-stable tags, and an in-range timestamp with
zero nanoseconds. (The claim's "including empty tag lists" fails — see
the counterexample — as do fields that the encoding's own separators
would corrupt.) -/
theorem decode_encode (n : GooseberryEntry) (h : n.WellFormed) :
    GooseberryEntry.from_file_string n.to_file_string = .ok n := by
  cases n with
  | Task e => exact decode_encode_task e h.1 h.2
  | Journal e => exact decode_encode_journal e h
  | Research e => exact decode_encode_research e h.1 h.2
  | Event e => exact decode_encode_event e h.1 h.2.1 h.2.2.1 h.2.2.2

/-! ### Association-list map lemmas -/

theorem find?_eq_none_of_not_contains {α : Type} {m : List (Nat × α)} {k : Nat}
    (h : mapContains m k = false) : m.find? (fun p => decide (p.1 = k)) = none := by
  rw [List.find?_eq_none]
  intro p hp
  simp only [mapContains, List.any_eq_false] at h
  simpa using h p hp

theorem mapGet_eq_none_of_not_contains {α : Type} {m : List (Nat × α)} {k : Nat}
    (h : mapContains m k = false) : mapGet m k = none := by
  rw [mapGet, find?_eq_none_of_not_contains h]
  rfl

theorem contains_cons_tail {α : Type} {p : Nat × α} {m : List (Nat × α)} {k : Nat}
    (h : mapContains (p :: m) k = true) (hk : p.1 ≠ k) : mapContains m k = true := by
  simp only [mapContains, List.any_cons, Bool.or_eq_true] at h
  rcases h with h | h
  · exact absurd (of_decide_eq_true h) hk
  · exact h

theorem mapGet_cons_ne {α : Type} {p : Nat × α} (m : List (Nat × α)) {k : Nat}
    (hk : p.1 ≠ k) : mapGet (p :: m) k = mapGet m k := by
  simp only [mapGet, List.find?_cons]
  rw [show decide (p.1 = k) = false from by simp [hk]]

theorem mapGet_cons_eq {α : Type} {p : Nat × α} (m : List (Nat × α)) {k : Nat}
    (hk : p.1 = k) : mapGet (p :: m) k = some p.2 := by
  simp only [mapGet, List.find?_cons]
  rw [show decide (p.1 = k) = true from by simp [hk]]
  rfl

theorem mapGet_isSome_of_contains {α : Type} {m : List (Nat × α)} {k : Nat}
    (h : mapContains m k = true) : ∃ v, mapGet m k = some v := by
  induction m with
  | nil => simp [mapContains] at h
  | cons p m' ih =>
    by_cases hk : p.1 = k
    · exact ⟨p.2, mapGet_cons_eq m' hk⟩
    · obtain ⟨v, hv⟩ := ih (contains_cons_tail h hk)
      exact ⟨v, by rw [mapGet_cons_ne m' hk]; exact hv⟩

theorem mapGet_mem {α : Type} {m : List (Nat × α)} {k : Nat} {v : α}
    (h : mapGet m k = some v) : (k, v) ∈ m := by
  rw [mapGet] at h
  rcases hf : m.find? (fun p => decide (p.1 = k)) with - | p
  · rw [hf] at h; simp at h
  · rw [hf] at h
    simp at h
    have hm := List.mem_of_find?_eq_some hf
    have hp := List.find?_some hf
    simp only [decide_eq_true_eq] at hp
    rcases p with ⟨k2, v2⟩
    simp only at hp h
    rw [← hp, ← h]
    exact hm

theorem keysOf_insert_of_contains {α : Type} {m : List (Nat × α)} {k : Nat} (v : α)
    (h : mapContains m k = true) :
    (mapInsert m k v).map (·.1) = m.map (·.1) := by
  rw [mapInsert, if_pos h, List.map_map]
  refine List.map_congr_left ?_
  intro p _
  by_cases hk : p.1 = k
  · simp [Function.comp, hk]
  · simp [Function.comp, hk]

theorem keysOf_insert_of_not_contains {α : Type} {m : List (Nat × α)} {k : Nat} (v : α)
    (h : mapContains m k = false) :
    (mapInsert m k v).map (·.1) = m.map (·.1) ++ [k] := by
  rw [mapInsert, if_neg (by rw [h]; exact Bool.false_ne_true), List.map_append]
  rfl

theorem keysOf_remove {α : Type} (m : List (Nat × α)) (k : Nat) :
    (mapRemove m k).map (·.1) = (m.map (·.1)).filter (fun i => decide (i ≠ k)) := by
  induction m with
  | nil => rfl
  | cons p m' ih =>
    simp only [mapRemove, List.filter_cons, List.map_cons] at ih ⊢
    by_cases hk : p.1 ≠ k
    · rw [if_pos (by simpa using hk), if_pos (by simpa using hk), List.map_cons, ih]
    · rw [if_neg (by simpa using hk), if_neg (by simpa using hk), ih]

theorem contains_iff_mem_keys {α : Type} (m : List (Nat × α)) (i : Nat) :
    mapContains m i = true ↔ i ∈ m.map (·.1) := by
  simp only [mapContains, List.any_eq_true, decide_eq_true_eq, List.mem_map]

theorem mapGet_insert_self {α : Type} (m : List (Nat × α)) (k : Nat) (v : α) :
    mapGet (mapInsert m k v) k = some v := by
  rw [mapInsert]
  by_cases h : mapContains m k = true
  · rw [if_pos h]
    induction m with
    | nil => simp [mapContains] at h
    | cons p m' ih =>
      by_cases hk : p.1 = k
      · rw [List.map_cons, if_pos hk]
        exact mapGet_cons_eq _ rfl
      · rw [List.map_cons, if_neg hk]
        rw [mapGet_cons_ne _ hk]
        exact ih (contains_cons_tail h hk)
  · rw [if_neg h]
    have hn := find?_eq_none_of_not_contains (Bool.not_eq_true _ ▸ h)
    rw [mapGet, List.find?_append, hn]
    simp

theorem mapContains_insert {α : Type} (m : List (Nat × α)) (k : Nat) (v : α) (i : Nat) :
    mapContains (mapInsert m k v) i = true ↔ mapContains m i = true ∨ i = k := by
  by_cases h : mapContains m k = true
  · rw [contains_iff_mem_keys, keysOf_insert_of_contains v h, ← contains_iff_mem_keys]
    constructor
    · exact Or.inl
    · rintro (hl | rfl)
      · exact hl
      · exact h
  · rw [contains_iff_mem_keys, keysOf_insert_of_not_contains v (by simpa using h),
      List.mem_append, ← contains_iff_mem_keys]
    simp

theorem mapContains_remove {α : Type} (m : List (Nat × α)) (k i : Nat) :
    mapContains (mapRemove m k) i = true ↔ mapContains m i = true ∧ i ≠ k := by
  simp only [mapContains, mapRemove, List.any_eq_true, List.mem_filter,
    decide_eq_true_eq]
  constructor
  · rintro ⟨p, ⟨hp, hne⟩, rfl⟩
    exact ⟨⟨p, hp, rfl⟩, hne⟩
  · rintro ⟨⟨p, hp, rfl⟩, hne⟩
    exact ⟨p, ⟨hp, hne⟩, rfl⟩

theorem pairs_insert {α : Type} {m : List (Nat × α)} {k : Nat} {v : α}
    (P : Nat × α → Prop) (hm : ∀ p ∈ m, P p) (hv : P (k, v)) :
    ∀ p ∈ mapInsert m k v, P p := by
  intro p hp
  rw [mapInsert] at hp
  by_cases h : mapContains m k = true
  · rw [if_pos h] at hp
    obtain ⟨q, hq, hqe⟩ := List.mem_map.mp hp
    by_cases hk : q.1 = k
    · rw [if_pos hk] at hqe
      rw [← hqe]; exact hv
    · rw [if_neg hk] at hqe
      rw [← hqe]; exact hm q hq
  · rw [if_neg h] at hp
    rcases List.mem_append.mp hp with hp | hp
    · exact hm p hp
    · rw [List.mem_singleton.mp hp]; exact hv

theorem pairs_remove {α : Type} {m : List (Nat × α)} {k : Nat}
    (P : Nat × α → Prop) (hm : ∀ p ∈ m, P p) :
    ∀ p ∈ mapRemove m k, P p := by
  intro p hp
  exact hm p (List.mem_filter.mp hp).1

theorem listMax_ge (l : List Nat) : ∀ i ∈ l, i ≤ listMax l := by
  induction l with
  | nil => simp
  | cons x l' ih =>
    intro i hi
    rcases List.mem_cons.mp hi with rfl | hi
    · simp [listMax, List.foldr]
    · have := ih i hi
      simp only [listMax, List.foldr] at this ⊢
      omega

/-! ### Digit-append parsing lemmas -/

theorem digitsVal_append_digit (s : Str) (c : Char) :
    digitsVal (s ++ [c]) = 10 * digitsVal s + charVal c := by
  simp [digitsVal, List.foldl_append]

theorem parseU64_append_digit {n d : Nat} (hd : d < 10) (h : 10 * n + d < u64Size) :
    parseU64 (natToChars n ++ [Char.ofNat (48 + d)]) = some (10 * n + d) := by
  obtain ⟨c, cs, hcs, hdig⟩ := natToChars_head_digit n
  have hplus : c ≠ '+' := by
    intro hc
    rw [hc] at hdig
    simp [Char.isDigit] at hdig
  have hh : (natToChars n ++ [Char.ofNat (48 + d)]).head? ≠ some '+' := by
    rw [hcs]
    simp [hplus]
  rw [parseU64, if_neg hh]
  have hall : (natToChars n ++ [Char.ofNat (48 + d)]).all Char.isDigit = true := by
    rw [List.all_append]
    simp [natToChars_all_digits n, isDigit_ofNat hd]
  have hval : digitsVal (natToChars n ++ [Char.ofNat (48 + d)]) = 10 * n + d := by
    rw [digitsVal_append_digit, digitsVal_natToChars, charVal_ofNat hd]
  simp [hall, hval, h]

theorem parseU64_single_digit {d : Nat} (hd : d < 10) :
    parseU64 [Char.ofNat (48 + d)] = some d := by
  have h := parseU64_natToChars (show d < u64Size by unfold u64Size; omega)
  rwa [natToChars_lt_ten hd] at h

/-! ### The catalog invariant (uniqueness and id allocation) -/

theorem mapContains_of_get {α : Type} {m : List (Nat × α)} {k : Nat} {v : α}
    (h : mapGet m k = some v) : mapContains m k = true := by
  have hm := mapGet_mem h
  simp only [mapContains, List.any_eq_true]
  exact ⟨(k, v), hm, by simp⟩

/-- The id stored inside an entry built from input boxes is the id the
builder was given. -/
theorem taskFib_id {i : Nat} {ty : GooseberryEntryType} {boxes : List InputBox}
    {now : DateTimeUtc} {e : TaskEntry}
    (h : TaskEntry.from_input_boxes i ty boxes now = .ok e) : e.id = i := by
  rcases boxes with - | ⟨b0, - | ⟨b1, - | ⟨b2, rest⟩⟩⟩ <;>
      simp only [TaskEntry.from_input_boxes] at h <;>
      split at h <;> cases h <;> rfl

theorem journalFib_id {i : Nat} {ty : GooseberryEntryType} {boxes : List InputBox}
    {now : DateTimeUtc} {e : JournalEntry}
    (h : JournalEntry.from_input_boxes i ty boxes now = .ok e) : e.id = i := by
  rcases boxes with - | ⟨b0, - | ⟨b1, rest⟩⟩ <;>
      simp only [JournalEntry.from_input_boxes] at h <;>
      split at h <;> cases h <;> rfl

theorem researchFib_id {i : Nat} {ty : GooseberryEntryType} {boxes : List InputBox}
    {now : DateTimeUtc} {e : ResearchEntry}
    (h : ResearchEntry.from_input_boxes i ty boxes now = .ok e) : e.id = i := by
  rcases boxes with - | ⟨b0, - | ⟨b1, - | ⟨b2, rest⟩⟩⟩ <;>
      simp only [ResearchEntry.from_input_boxes] at h <;>
      split at h <;> cases h <;> rfl

theorem eventFib_id {i : Nat} {ty : GooseberryEntryType} {boxes : List InputBox}
    {now : DateTimeUtc} {e : EventEntry}
    (h : EventEntry.from_input_boxes i ty boxes now = .ok e) : e.id = i := by
  rcases boxes with - | ⟨b0, - | ⟨b1, - | ⟨b2, - | ⟨b3, rest⟩⟩⟩⟩ <;>
      simp only [EventEntry.from_input_boxes] at h <;>
      split at h <;> cases h <;> rfl

theorem from_input_boxes_id {i : Nat} {ty : GooseberryEntryType} {boxes : List InputBox}
    {now : DateTimeUtc} {e : GooseberryEntry}
    (h : GooseberryEntry.from_input_boxes i ty boxes now = .ok e) : e.id = i := by
  cases ty <;> simp only [GooseberryEntry.from_input_boxes] at h <;> split at h
  case Task.h_1 e' heq =>
    injection h with h
    subst h
    simpa [GooseberryEntry.id] using taskFib_id heq
  case Journal.h_1 e' heq =>
    injection h with h
    subst h
    simpa [GooseberryEntry.id] using journalFib_id heq
  case Event.h_1 e' heq =>
    injection h with h
    subst h
    simpa [GooseberryEntry.id] using eventFib_id heq
  case Research.h_1 e' heq =>
    injection h with h
    subst h
    simpa [GooseberryEntry.id] using researchFib_id heq
  all_goals exact absurd h (by simp)

/-- Merging keeps the old entry's id whenever the fresh entry was built
at that id. -/
theorem merge_id (self old : GooseberryEntry) (h : self.id = old.id) :
    (self.merge_with_entry old).id = old.id := by
  cases self <;> cases old <;>
    simp_all [GooseberryEntry.merge_with_entry, GooseberryEntry.id,
      TaskEntry.merge_with_entry, JournalEntry.merge_with_entry,
      ResearchEntry.merge_with_entry, EventEntry.merge_with_entry]

/-- The catalog's coherence invariant: no duplicate visible ids, no
duplicate entry keys, the key set and the visible-id set coincide, each
stored entry carries its key as its id, and every id in the catalog is
below the allocator's `next_id`. -/
def TabInv (t : GooseberryTab) : Prop :=
  t.visible_ids.Nodup ∧
  (t.entries.map (·.1)).Nodup ∧
  (∀ i, mapContains t.entries i = true ↔ i ∈ t.visible_ids) ∧
  (∀ p ∈ t.entries, (p.2 : GooseberryEntry).id = p.1) ∧
  (∀ i ∈ t.visible_ids, i < t.next_id)

theorem ff_snd (ds : List GooseberryEntry) :
    ∀ acc : List (Nat × GooseberryEntry) × List Nat,
      (ds.foldl (fun (acc : List (Nat × GooseberryEntry) × List Nat) g =>
        (mapInsert acc.1 g.id g, acc.2 ++ [g.id])) acc).2
        = acc.2 ++ ds.map GooseberryEntry.id := by
  induction ds with
  | nil => intro acc; simp
  | cons g ds ih =>
    intro acc
    rw [List.foldl_cons, ih]
    simp

theorem ff_keys (ds : List GooseberryEntry) :
    ∀ acc : List (Nat × GooseberryEntry) × List Nat,
      acc.1.map (·.1) = acc.2 →
      (acc.2 ++ ds.map GooseberryEntry.id).Nodup →
      ((ds.foldl (fun (acc : List (Nat × GooseberryEntry) × List Nat) g =>
          (mapInsert acc.1 g.id g, acc.2 ++ [g.id])) acc).1.map (·.1))
        = (ds.foldl (fun (acc : List (Nat × GooseberryEntry) × List Nat) g =>
          (mapInsert acc.1 g.id g, acc.2 ++ [g.id])) acc).2 := by
  induction ds with
  | nil =>
    intro acc h _
    simpa using h
  | cons g ds ih =>
    intro acc hk hnd
    rw [List.foldl_cons]
    have hni : mapContains acc.1 g.id = false := by
      cases hc : mapContains acc.1 g.id
      · rfl
      · exfalso
        have hmem : g.id ∈ acc.1.map (·.1) := (contains_iff_mem_keys _ _).mp hc
        rw [hk] at hmem
        exact List.disjoint_of_nodup_append (by simpa using hnd) hmem
          (List.mem_cons_self _ _)
    apply ih
    · rw [keysOf_insert_of_not_contains _ hni, hk]
    · simpa [List.append_assoc] using hnd

theorem ff_pairs (ds : List GooseberryEntry) :
    ∀ acc : List (Nat × GooseberryEntry) × List Nat,
      (∀ p ∈ acc.1, (p.2 : GooseberryEntry).id = p.1) →
      ∀ p ∈ (ds.foldl (fun (acc : List (Nat × GooseberryEntry) × List Nat) g =>
          (mapInsert acc.1 g.id g, acc.2 ++ [g.id])) acc).1,
        (p.2 : GooseberryEntry).id = p.1 := by
  induction ds with
  | nil => intro acc h; exact h
  | cons g ds ih =>
    intro acc hp
    rw [List.foldl_cons]
    exact ih _ (pairs_insert _ hp rfl)

theorem from_folder_visible (ty : GooseberryEntryType) (ds : List GooseberryEntry) :
    (GooseberryTab.from_folder ty ds).visible_ids = ds.map GooseberryEntry.id := by
  simp only [GooseberryTab.from_folder]
  simpa using ff_snd ds ([], [])

theorem from_folder_next (ty : GooseberryEntryType) (ds : List GooseberryEntry) :
    (GooseberryTab.from_folder ty ds).next_id = listMax (ds.map GooseberryEntry.id) + 1 := by
  simp only [GooseberryTab.from_folder]
  rw [ff_snd ds ([], [])]
  simp

theorem TabInv_from_folder (ty : GooseberryEntryType) (ds : List GooseberryEntry)
    (h : (ds.map GooseberryEntry.id).Nodup) :
    TabInv (GooseberryTab.from_folder ty ds) := by
  have hv := from_folder_visible ty ds
  have hk : ((GooseberryTab.from_folder ty ds).entries.map (·.1))
      = (GooseberryTab.from_folder ty ds).visible_ids := by
    simp only [GooseberryTab.from_folder]
    exact ff_keys ds ([], []) rfl (by simpa using h)
  have hn := from_folder_next ty ds
  refine ⟨?_, ?_, ?_, ?_, ?_⟩
  · rw [hv]; exact h
  · rw [hk, hv]; exact h
  · intro i
    rw [contains_iff_mem_keys, hk]
  · show ∀ p ∈ (GooseberryTab.from_folder ty ds).entries, (p.2 : GooseberryEntry).id = p.1
    simp only [GooseberryTab.from_folder]
    exact ff_pairs ds ([], []) (by simp)
  · intro i hi
    rw [hn]
    rw [hv] at hi
    have := listMax_ge _ i hi
    omega

theorem TabInv_applyOp (t : GooseberryTab) (op : CatalogOp) (h : TabInv t) :
    TabInv (applyOp t op) := by
  obtain ⟨h1, h2, h3, h5, h4⟩ := h
  match op with
  | .add now boxes =>
    simp only [applyOp, GooseberryTab.add_entry]
    rcases hfe : GooseberryEntry.from_input_boxes t.next_id t.entry_type boxes now
      with newe | e | -
    · have hnc : mapContains t.entries t.next_id = false := by
        cases hc : mapContains t.entries t.next_id
        · rfl
        · have hmem := (h3 _).mp hc
          have := h4 _ hmem
          omega
      have hnv : t.next_id ∉ t.visible_ids := by
        intro hmem
        have := h4 _ hmem
        omega
      have hnk : t.next_id ∉ t.entries.map (·.1) := by
        intro hmem
        rw [← contains_iff_mem_keys] at hmem
        rw [hnc] at hmem
        exact Bool.false_ne_true hmem
      simp only [GooseberryTab.save_entry, mapGet_insert_self]
      refine ⟨?_, ?_, ?_, ?_, ?_⟩
      · refine List.Nodup.append h1 (List.nodup_singleton _) ?_
        intro a ha hb
        rw [List.mem_singleton] at hb
        subst hb
        exact hnv ha
      · rw [keysOf_insert_of_not_contains _ hnc]
        refine List.Nodup.append h2 (List.nodup_singleton _) ?_
        intro a ha hb
        rw [List.mem_singleton] at hb
        subst hb
        exact hnk ha
      · intro i
        rw [mapContains_insert, h3 i]
        simp [List.mem_append, or_comm]
      · exact pairs_insert _ h5 (from_input_boxes_id hfe)
      · intro i hi
        simp only [List.mem_append, List.mem_singleton] at hi
        show i < t.next_id + 1
        rcases hi with hi | rfl
        · have := h4 _ hi
          omega
        · omega
    · exact ⟨h1, h2, h3, h5, h4⟩
    · exact ⟨h1, h2, h3, h5, h4⟩
  | .editSave i now boxes =>
    simp only [applyOp]
    rcases hg : mapGet t.entries i with - | old
    · exact ⟨h1, h2, h3, h5, h4⟩
    · have hoi : old.id = i := h5 _ (mapGet_mem hg)
      have hcid : mapContains t.entries old.id = true := by
        rw [hoi]
        exact mapContains_of_get hg
      simp only [GooseberryTab.merge_entry]
      rcases hfe : GooseberryEntry.from_input_boxes old.id t.entry_type boxes now
        with newe | e | -
      · simp only [GooseberryTab.save_entry, mapGet_insert_self]
        refine ⟨h1, ?_, ?_, ?_, h4⟩
        · rw [keysOf_insert_of_contains _ hcid]
          exact h2
        · intro j
          rw [mapContains_insert, h3 j]
          constructor
          · rintro (hl | rfl)
            · exact hl
            · exact (h3 _).mp hcid
          · exact Or.inl
        · exact pairs_insert _ h5 (merge_id _ _ (from_input_boxes_id hfe))
      · exact ⟨h1, h2, h3, h5, h4⟩
      · exact ⟨h1, h2, h3, h5, h4⟩
  | .delete i =>
    simp only [applyOp, GooseberryTab.delete_entry]
    by_cases hc : mapContains t.entries i = true
    · rw [if_pos hc]
      refine ⟨h1.erase i, ?_, ?_, ?_, ?_⟩
      · rw [keysOf_remove]
        exact h2.filter _
      · intro j
        rw [mapContains_remove, h3 j, List.Nodup.mem_erase_iff h1]
        tauto
      · exact pairs_remove _ h5
      · intro j hj
        exact h4 j (List.mem_of_mem_erase hj)
    · rw [if_neg hc]
      exact ⟨h1, h2, h3, h5, h4⟩

theorem next_id_applyOp (t : GooseberryTab) (op : CatalogOp) :
    t.next_id ≤ (applyOp t op).next_id := by
  match op with
  | .add now boxes =>
    simp only [applyOp, GooseberryTab.add_entry]
    rcases hfe : GooseberryEntry.from_input_boxes t.next_id t.entry_type boxes now
      with newe | e | -
    · simp only [GooseberryTab.save_entry, mapGet_insert_self]
      show t.next_id ≤ t.next_id + 1
      omega
    · exact Nat.le_refl _
    · exact Nat.le_refl _
  | .editSave id now boxes =>
    simp only [applyOp]
    rcases hg : mapGet t.entries id with - | old
    · exact Nat.le_refl _
    · simp only [GooseberryTab.merge_entry]
      rcases hfe : GooseberryEntry.from_input_boxes old.id t.entry_type boxes now
        with newe | e | -
      · simp only [GooseberryTab.save_entry, mapGet_insert_self]
        exact Nat.le_refl _
      · exact Nat.le_refl _
      · exact Nat.le_refl _
  | .delete id =>
    simp only [applyOp, GooseberryTab.delete_entry]
    by_cases hc : mapContains t.entries id = true
    · rw [if_pos hc]
    · rw [if_neg hc]

theorem next_id_runOps (ops : List CatalogOp) :
    ∀ t : GooseberryTab, t.next_id ≤ (runOps t ops).next_id := by
  induction ops with
  | nil => intro t; exact Nat.le_refl _
  | cons op ops ih =>
    intro t
    rw [runOps, List.foldl_cons]
    exact Nat.le_trans (next_id_applyOp t op) (ih (applyOp t op))

theorem TabInv_runOps (ops : List CatalogOp) :
    ∀ t : GooseberryTab, TabInv t → TabInv (runOps t ops) := by
  induction ops with
  | nil => intro t h; exact h
  | cons op ops ih =>
    intro t h
    rw [runOps, List.foldl_cons]
    exact ih (applyOp t op) (TabInv_applyOp t op h)

/-! ### Concrete example data used by witnesses and counterexamples -/

/-- A sample timestamp: 1 Jan 2023, midnight UTC. -/
def egDT : DateTimeUtc := ⟨2023, 1, 1, 0, 0, 0, 0⟩

/-- A sample completed task, id 7. -/
def egTask : TaskEntry :=
  ⟨7, "buy milk".data, "whole milk".data, egDT, true, ["errand".data]⟩

/-- C7: catalog uniqueness. Starting from a loaded catalog whose decoded
ids are distinct (the keys and the visible order then agree), after
every sequence of add, edit-save and delete operations the entry keys
contain no duplicates, the visible ids contain no duplicates, and an id
is an entry key exactly when it is a visible id. -/
theorem catalog_uniqueness (ty : GooseberryEntryType) (decoded : List GooseberryEntry)
    (hnd : (decoded.map GooseberryEntry.id).Nodup) (ops : List CatalogOp) :
    ((runOps (GooseberryTab.from_folder ty decoded) ops).entries.map (·.1)).Nodup ∧
    (runOps (GooseberryTab.from_folder ty decoded) ops).visible_ids.Nodup ∧
    ∀ i, mapContains (runOps (GooseberryTab.from_folder ty decoded) ops).entries i = true ↔
      i ∈ (runOps (GooseberryTab.from_folder ty decoded) ops).visible_ids := by
  obtain ⟨h1, h2, h3, h5, h4⟩ := TabInv_runOps ops _ (TabInv_from_folder ty decoded hnd)
  exact ⟨h2, h1, h3⟩

/-- Witness for C7 at a concrete one-entry catalog and a concrete
operation sequence. -/
theorem catalog_uniqueness_witness :
    ((runOps (GooseberryTab.from_folder .Task [.Task egTask]) [.delete 7]).entries.map
      (·.1)).Nodup ∧
    (runOps (GooseberryTab.from_folder .Task [.Task egTask]) [.delete 7]).visible_ids.Nodup ∧
    ∀ i, mapContains (runOps (GooseberryTab.from_folder .Task [.Task egTask])
        [.delete 7]).entries i = true ↔
      i ∈ (runOps (GooseberryTab.from_folder .Task [.Task egTask]) [.delete 7]).visible_ids :=
  catalog_uniqueness .Task [.Task egTask] (by decide) [.delete 7]

/-- C8: id allocation. At load time `next_id` is one more than the
largest decoded id (`1` for an empty catalog); after every operation
sequence every id present in the catalog is strictly below `next_id`;
and once an id is deleted, every later value of the allocator stays
strictly above it, so the allocator (which hands out `next_id`) never
hands the deleted id out again within the session. -/
theorem id_allocation (ty : GooseberryEntryType) (decoded : List GooseberryEntry)
    (hnd : (decoded.map GooseberryEntry.id).Nodup) :
    (GooseberryTab.from_folder ty decoded).next_id
        = listMax (decoded.map GooseberryEntry.id) + 1 ∧
    (∀ ops : List CatalogOp, ∀ i,
      mapContains (runOps (GooseberryTab.from_folder ty decoded) ops).entries i = true →
        i < (runOps (GooseberryTab.from_folder ty decoded) ops).next_id) ∧
    ∀ ops1 : List CatalogOp, ∀ d : Nat, ∀ ops2 : List CatalogOp,
      mapContains (runOps (GooseberryTab.from_folder ty decoded) ops1).entries d = true →
      d < (runOps (applyOp (runOps (GooseberryTab.from_folder ty decoded) ops1)
            (.delete d)) ops2).next_id := by
  refine ⟨from_folder_next ty decoded, ?_, ?_⟩
  · intro ops i hi
    obtain ⟨h1, h2, h3, h5, h4⟩ := TabInv_runOps ops _ (TabInv_from_folder ty decoded hnd)
    exact h4 i ((h3 i).mp hi)
  · intro ops1 d ops2 hd
    obtain ⟨h1, h2, h3, h5, h4⟩ := TabInv_runOps ops1 _ (TabInv_from_folder ty decoded hnd)
    have hd1 : d < (runOps (GooseberryTab.from_folder ty decoded) ops1).next_id :=
      h4 d ((h3 d).mp hd)
    have hmono1 := next_id_applyOp (runOps (GooseberryTab.from_folder ty decoded) ops1)
      (CatalogOp.delete d)
    have hmono2 := next_id_runOps ops2
      (applyOp (runOps (GooseberryTab.from_folder ty decoded) ops1) (CatalogOp.delete d))
    omega

/-- Witness for C8 at a concrete one-entry catalog. -/
theorem id_allocation_witness :
    (GooseberryTab.from_folder .Task [.Task egTask]).next_id
        = listMax ([GooseberryEntry.Task egTask].map GooseberryEntry.id) + 1 ∧
    (∀ ops : List CatalogOp, ∀ i,
      mapContains (runOps (GooseberryTab.from_folder .Task [.Task egTask]) ops).entries i
          = true →
        i < (runOps (GooseberryTab.from_folder .Task [.Task egTask]) ops).next_id) ∧
    ∀ ops1 : List CatalogOp, ∀ d : Nat, ∀ ops2 : List CatalogOp,
      mapContains (runOps (GooseberryTab.from_folder .Task [.Task egTask]) ops1).entries d
          = true →
      d < (runOps (applyOp (runOps (GooseberryTab.from_folder .Task [.Task egTask]) ops1)
            (.delete d)) ops2).next_id :=
  id_allocation .Task [.Task egTask] (by decide)

/-- A filled-in Task form: the three boxes of the Task layout holding
replacement text. -/
def egB0 : InputBox := ⟨"Task".data, true, "buy bread".data, false, 10, 0⟩

/-- The second box of the filled-in Task form. -/
def egB1 : InputBox := ⟨"Description".data, false, "rye bread".data, true, 60, 0⟩

/-- The third box of the filled-in Task form. -/
def egB2 : InputBox := ⟨"Tags".data, false, "errand, food".data, false, 10, 0⟩

/-- A Task tab holding `egTask` (id 7), in writing mode editing it,
with the form contents replaced by `egB0`/`egB1`/`egB2`. -/
def egTab : GooseberryTab :=
  ⟨.Task, false, [(7, .Task egTask)], [7], true, ⟨[egB0, egB1, egB2], 0⟩, 8, 0,
   none, false, 0, some (.Task egTask)⟩

/-- C2: merge-on-edit, for every variant. For every tab editing an
existing note (the clone of the stored entry held in `editing_entry`,
as the edit command sets it up) whose variant matches the tab's
category and whose form has that category's box layout, saving the
form stores a note that keeps the original `id` and `datetime` (and,
for a Task, the original `done` flag) and takes only the user-editable
text fields from the form, persists exactly that entry, leaves
`next_id` untouched and leaves writing/editing mode. -/
theorem merge_on_edit (t : GooseberryTab) (now : DateTimeUtc)
    (te : TaskEntry) (je : JournalEntry) (re : ResearchEntry) (ee : EventEntry)
    (b0 b1 b2 b3 : InputBox)
    (hw : t.is_writing = true) :
    (t.entry_type = .Task → t.editing_entry = some (.Task te) →
        t.input_boxes.boxes = [b0, b1, b2] →
      ∃ t2 : GooseberryTab,
        t.keypress now (.Ctrl 's') =
          some (t2, [.Write (GooseberryEntryType.file_name .Task te.id)
            (GooseberryEntry.Task { te with
              task := b0.get_content,
              description := b1.get_content,
              tags := splitTags b2.get_content }).to_file_string], none) ∧
        mapGet t2.entries te.id = some (.Task { te with
          task := b0.get_content,
          description := b1.get_content,
          tags := splitTags b2.get_content }) ∧
        t2.editing_entry = none ∧ t2.is_writing = false ∧ t2.next_id = t.next_id) ∧
    (t.entry_type = .Journal → t.editing_entry = some (.Journal je) →
        t.input_boxes.boxes = [b0, b1] →
      ∃ t2 : GooseberryTab,
        t.keypress now (.Ctrl 's') =
          some (t2, [.Write (GooseberryEntryType.file_name .Journal je.id)
            (GooseberryEntry.Journal { je with
              description := b0.get_content,
              tags := splitTags b1.get_content }).to_file_string], none) ∧
        mapGet t2.entries je.id = some (.Journal { je with
          description := b0.get_content,
          tags := splitTags b1.get_content }) ∧
        t2.editing_entry = none ∧ t2.is_writing = false ∧ t2.next_id = t.next_id) ∧
    (t.entry_type = .Research → t.editing_entry = some (.Research re) →
        t.input_boxes.boxes = [b0, b1, b2] →
      ∃ t2 : GooseberryTab,
        t.keypress now (.Ctrl 's') =
          some (t2, [.Write (GooseberryEntryType.file_name .Research re.id)
            (GooseberryEntry.Research { re with
              title := b0.get_content,
              notes := b1.get_content,
              tags := splitTags b2.get_content }).to_file_string], none) ∧
        mapGet t2.entries re.id = some (.Research { re with
          title := b0.get_content,
          notes := b1.get_content,
          tags := splitTags b2.get_content }) ∧
        t2.editing_entry = none ∧ t2.is_writing = false ∧ t2.next_id = t.next_id) ∧
    (t.entry_type = .Event → t.editing_entry = some (.Event ee) →
        t.input_boxes.boxes = [b0, b1, b2, b3] →
      ∃ t2 : GooseberryTab,
        t.keypress now (.Ctrl 's') =
          some (t2, [.Write (GooseberryEntryType.file_name .Event ee.id)
            (GooseberryEntry.Event { ee with
              title := b0.get_content,
              people := splitTags b2.get_content,
              notes := b1.get_content,
              tags := splitTags b3.get_content }).to_file_string], none) ∧
        mapGet t2.entries ee.id = some (.Event { ee with
          title := b0.get_content,
          people := splitTags b2.get_content,
          notes := b1.get_content,
          tags := splitTags b3.get_content }) ∧
        t2.editing_entry = none ∧ t2.is_writing = false ∧ t2.next_id = t.next_id) := by
  refine ⟨?_, ?_, ?_, ?_⟩
  · intro hty hed hboxes
    simp only [GooseberryTab.keypress, hw, if_true, InputBoxes.keypress, InputBoxes.save,
      hboxes, hed, Option.isSome_some, GooseberryTab.merge_entry, GooseberryEntry.id,
      GooseberryEntry.from_input_boxes, hty, TaskEntry.from_input_boxes,
      GooseberryEntry.merge_with_entry, TaskEntry.merge_with_entry,
      GooseberryTab.save_entry, mapGet_insert_self]
    refine ⟨_, rfl, ?_, ?_, ?_, ?_⟩
    · exact mapGet_insert_self _ _ _
    · rfl
    · rfl
    · rfl
  · intro hty hed hboxes
    simp only [GooseberryTab.keypress, hw, if_true, InputBoxes.keypress, InputBoxes.save,
      hboxes, hed, Option.isSome_some, GooseberryTab.merge_entry, GooseberryEntry.id,
      GooseberryEntry.from_input_boxes, hty, JournalEntry.from_input_boxes,
      GooseberryEntry.merge_with_entry, JournalEntry.merge_with_entry,
      GooseberryTab.save_entry, mapGet_insert_self]
    refine ⟨_, rfl, ?_, ?_, ?_, ?_⟩
    · exact mapGet_insert_self _ _ _
    · rfl
    · rfl
    · rfl
  · intro hty hed hboxes
    simp only [GooseberryTab.keypress, hw, if_true, InputBoxes.keypress, InputBoxes.save,
      hboxes, hed, Option.isSome_some, GooseberryTab.merge_entry, GooseberryEntry.id,
      GooseberryEntry.from_input_boxes, hty, ResearchEntry.from_input_boxes,
      GooseberryEntry.merge_with_entry, ResearchEntry.merge_with_entry,
      GooseberryTab.save_entry, mapGet_insert_self]
    refine ⟨_, rfl, ?_, ?_, ?_, ?_⟩
    · exact mapGet_insert_self _ _ _
    · rfl
    · rfl
    · rfl
  · intro hty hed hboxes
    simp only [GooseberryTab.keypress, hw, if_true, InputBoxes.keypress, InputBoxes.save,
      hboxes, hed, Option.isSome_some, GooseberryTab.merge_entry, GooseberryEntry.id,
      GooseberryEntry.from_input_boxes, hty, EventEntry.from_input_boxes,
      GooseberryEntry.merge_with_entry, EventEntry.merge_with_entry,
      GooseberryTab.save_entry, mapGet_insert_self]
    refine ⟨_, rfl, ?_, ?_, ?_, ?_⟩
    · exact mapGet_insert_self _ _ _
    · rfl
    · rfl
    · rfl

/-- A fourth filled-in box (for the Event layout). -/
def egB3 : InputBox := ⟨"Tags".data, false, "ada, grace".data, false, 10, 0⟩

/-- A sample journal entry, id 2. -/
def egJournal : JournalEntry := ⟨2, "wrote code".data, egDT, ["log".data]⟩

/-- A sample research entry, id 3. -/
def egResearch : ResearchEntry := ⟨3, "lean".data, "tactics".data, egDT, ["proof".data]⟩

/-- A sample event entry, id 4. -/
def egEvent : EventEntry := ⟨4, "meetup".data, ["ada".data], egDT, "notes".data, ["social".data]⟩

/-- Witness for C2 at the concrete tab `egTab`, which is editing the
completed task id 7: its Task conjunct saves a task that keeps id 7,
the old timestamp and `done = true` with the new text. -/
theorem merge_on_edit_witness :
    (egTab.entry_type = .Task → egTab.editing_entry = some (.Task egTask) →
        egTab.input_boxes.boxes = [egB0, egB1, egB2] →
      ∃ t2 : GooseberryTab,
        egTab.keypress egDT (.Ctrl 's') =
          some (t2, [.Write (GooseberryEntryType.file_name .Task egTask.id)
            (GooseberryEntry.Task { egTask with
              task := egB0.get_content,
              description := egB1.get_content,
              tags := splitTags egB2.get_content }).to_file_string], none) ∧
        mapGet t2.entries egTask.id = some (.Task { egTask with
          task := egB0.get_content,
          description := egB1.get_content,
          tags := splitTags egB2.get_content }) ∧
        t2.editing_entry = none ∧ t2.is_writing = false ∧ t2.next_id = egTab.next_id) ∧
    (egTab.entry_type = .Journal → egTab.editing_entry = some (.Journal egJournal) →
        egTab.input_boxes.boxes = [egB0, egB1] →
      ∃ t2 : GooseberryTab,
        egTab.keypress egDT (.Ctrl 's') =
          some (t2, [.Write (GooseberryEntryType.file_name .Journal egJournal.id)
            (GooseberryEntry.Journal { egJournal with
              description := egB0.get_content,
              tags := splitTags egB1.get_content }).to_file_string], none) ∧
        mapGet t2.entries egJournal.id = some (.Journal { egJournal with
          description := egB0.get_content,
          tags := splitTags egB1.get_content }) ∧
        t2.editing_entry = none ∧ t2.is_writing = false ∧ t2.next_id = egTab.next_id) ∧
    (egTab.entry_type = .Research → egTab.editing_entry = some (.Research egResearch) →
        egTab.input_boxes.boxes = [egB0, egB1, egB2] →
      ∃ t2 : GooseberryTab,
        egTab.keypress egDT (.Ctrl 's') =
          some (t2, [.Write (GooseberryEntryType.file_name .Research egResearch.id)
            (GooseberryEntry.Research { egResearch with
              title := egB0.get_content,
              notes := egB1.get_content,
              tags := splitTags egB2.get_content }).to_file_string], none) ∧
        mapGet t2.entries egResearch.id = some (.Research { egResearch with
          title := egB0.get_content,
          notes := egB1.get_content,
          tags := splitTags egB2.get_content }) ∧
        t2.editing_entry = none ∧ t2.is_writing = false ∧ t2.next_id = egTab.next_id) ∧
    (egTab.entry_type = .Event → egTab.editing_entry = some (.Event egEvent) →
        egTab.input_boxes.boxes = [egB0, egB1, egB2, egB3] →
      ∃ t2 : GooseberryTab,
        egTab.keypress egDT (.Ctrl 's') =
          some (t2, [.Write (GooseberryEntryType.file_name .Event egEvent.id)
            (GooseberryEntry.Event { egEvent with
              title := egB0.get_content,
              people := splitTags egB2.get_content,
              notes := egB1.get_content,
              tags := splitTags egB3.get_content }).to_file_string], none) ∧
        mapGet t2.entries egEvent.id = some (.Event { egEvent with
          title := egB0.get_content,
          people := splitTags egB2.get_content,
          notes := egB1.get_content,
          tags := splitTags egB3.get_content }) ∧
        t2.editing_entry = none ∧ t2.is_writing = false ∧ t2.next_id = egTab.next_id) :=
  merge_on_edit egTab egDT egTask egJournal egResearch egEvent egB0 egB1 egB2 egB3 rfl

/-- The dispatched toggle never touches the picker fields. -/
theorem toggle_picking (t : GooseberryTab) :
    (t.toggle_task_entry).1.picking_char = t.picking_char ∧
    (t.toggle_task_entry).1.picking_entry = t.picking_entry ∧
    (t.toggle_task_entry).1.selected_entry = t.selected_entry := by
  unfold GooseberryTab.toggle_task_entry
  split
  · split
    · exact ⟨rfl, rfl, rfl⟩
    · dsimp only
      split
      · exact ⟨rfl, rfl, rfl⟩
      · exact ⟨rfl, rfl, rfl⟩
  · exact ⟨rfl, rfl, rfl⟩

/-- The dispatched edit setup never touches the picker fields. -/
theorem start_editing_picking (t : GooseberryTab) :
    (t.start_editing).1.picking_char = t.picking_char ∧
    (t.start_editing).1.picking_entry = t.picking_entry ∧
    (t.start_editing).1.selected_entry = t.selected_entry := by
  unfold GooseberryTab.start_editing
  split
  · exact ⟨rfl, rfl, rfl⟩
  · exact ⟨rfl, rfl, rfl⟩

/-- The dispatched delete never touches the picker fields. -/
theorem delete_picking (t : GooseberryTab) (i : Nat) :
    ((t.delete_entry i).1).picking_char = t.picking_char ∧
    ((t.delete_entry i).1).picking_entry = t.picking_entry ∧
    ((t.delete_entry i).1).selected_entry = t.selected_entry := by
  unfold GooseberryTab.delete_entry
  split
  · exact ⟨rfl, rfl, rfl⟩
  · exact ⟨rfl, rfl, rfl⟩

/-- A browsing-mode Task tab with the picker armed for `e` (edit) and
accumulated target id 42, which is absent from the one-entry catalog. -/
def egTabPick : GooseberryTab :=
  ⟨.Task, false, [(7, .Task egTask)], [7], false, ⟨[], 0⟩, 8, 0, some 'e', true, 42, none⟩

/-- C3 counterexample: on `egTabPick` the confirm keystroke dispatches
the edit of absent id 42, the `?` propagates the `MissingEntryID`
error before the reset lines run, and the returned tab still has the
picker armed (`picking_char = some e`, `picking_entry = true`,
`selected_entry = 42`) — not back to Idle as the claim states. -/
theorem picker_confirm_counterexample :
    egTabPick.picking_char = some 'e' ∧
    egTabPick.keypress egDT (.Char '\n') =
      some (egTabPick, [], some (.MissingEntryID .Task 42)) ∧
    ¬ (egTabPick.picking_entry = false ∧ egTabPick.picking_char = none ∧
       egTabPick.selected_entry = 0) := by decide

/-- C3 (amended): the confirm keystroke returns the picker to Idle only
when the dispatched action succeeds; when the dispatch fails, the `?`
early return skips the reset and the picker state is left exactly as it
was (still armed with the same command and accumulated id). -/
theorem picker_confirm (t : GooseberryTab) (now : DateTimeUtc) (pc : Char)
    (hw : t.is_writing = false)
    (hpc : t.picking_char = some pc) :
    ∃ t2 ops err, t.keypress now (.Char '\n') = some (t2, ops, err) ∧
      (err = none → t2.picking_char = none ∧ t2.picking_entry = false ∧
        t2.selected_entry = 0) ∧
      ∀ e, err = some e → t2.picking_char = t.picking_char ∧
        t2.picking_entry = t.picking_entry ∧ t2.selected_entry = t.selected_entry := by
  simp only [GooseberryTab.keypress, hw, Bool.false_eq_true, if_false]
  rw [if_neg (by decide), if_neg (by decide), if_neg (by decide), if_neg (by decide),
    if_pos (by decide)]
  simp only [hpc]
  by_cases h1 : pc = 't'
  · subst h1
    rw [if_pos rfl]
    obtain ⟨hp1, hp2, hp3⟩ := toggle_picking t
    rcases htg : t.toggle_task_entry with ⟨t2, ops, err⟩
    simp only [htg] at hp1 hp2 hp3
    rcases err with - | e
    · refine ⟨_, _, none, rfl, ?_, ?_⟩
      · intro _
        exact ⟨rfl, rfl, rfl⟩
      · intro e he
        exact absurd he (by simp)
    · refine ⟨t2, ops, some e, rfl, ?_, ?_⟩
      · intro h
        exact absurd h (by simp)
      · intro e2 he
        exact ⟨hp1.trans hpc, hp2, hp3⟩
  · rw [if_neg h1]
    by_cases h2 : pc = 'e'
    · subst h2
      rw [if_pos rfl]
      obtain ⟨hp1, hp2, hp3⟩ := start_editing_picking t
      rcases hse : t.start_editing with ⟨t2, er⟩
      simp only [hse] at hp1 hp2 hp3
      rcases er with - | e
      · refine ⟨_, _, none, rfl, ?_, ?_⟩
        · intro _
          exact ⟨rfl, rfl, rfl⟩
        · intro e he
          exact absurd he (by simp)
      · refine ⟨t2, [], some e, rfl, ?_, ?_⟩
        · intro h
          exact absurd h (by simp)
        · intro e2 he
          exact ⟨hp1.trans hpc, hp2, hp3⟩
    · rw [if_neg h2]
      by_cases h3 : pc = 'd'
      · subst h3
        rw [if_pos rfl]
        obtain ⟨hp1, hp2, hp3⟩ := delete_picking t t.selected_entry
        rcases hde : t.delete_entry t.selected_entry with ⟨t2, ops, err⟩
        simp only [hde] at hp1 hp2 hp3
        rcases err with - | e
        · refine ⟨_, _, none, rfl, ?_, ?_⟩
          · intro _
            exact ⟨rfl, rfl, rfl⟩
          · intro e he
            exact absurd he (by simp)
        · refine ⟨t2, ops, some e, rfl, ?_, ?_⟩
          · intro h
            exact absurd h (by simp)
          · intro e2 he
            exact ⟨hp1.trans hpc, hp2, hp3⟩
      · rw [if_neg h3]
        refine ⟨_, _, none, rfl, ?_, ?_⟩
        · intro _
          exact ⟨rfl, rfl, rfl⟩
        · intro e he
          exact absurd he (by simp)


/-- Witness for the amended C3 at the concrete armed tab `egTabPick`
(whose dispatch fails, exercising the picker-preserved branch). -/
theorem picker_confirm_witness :
    ∃ t2 ops err, egTabPick.keypress egDT (.Char '\n') = some (t2, ops, err) ∧
      (err = none → t2.picking_char = none ∧ t2.picking_entry = false ∧
        t2.selected_entry = 0) ∧
      ∀ e, err = some e → t2.picking_char = egTabPick.picking_char ∧
        t2.picking_entry = egTabPick.picking_entry ∧
        t2.selected_entry = egTabPick.selected_entry :=
  picker_confirm egTabPick egDT 'e' rfl rfl

/-- C4 counterexample: pressing Esc on a form whose three boxes hold
text returns (no snapshot, stop writing) but the box contents are NOT
cleared — they are retained (that is how pressing `n` later resumes at
the same state), contradicting the claim that cancel clears all field
contents. -/
theorem cancel_counterexample :
    (InputBoxes.keypress ⟨[egB0, egB1, egB2], 1⟩ .Esc).2.1 = none ∧
    (InputBoxes.keypress ⟨[egB0, egB1, egB2], 1⟩ .Esc).2.2 = true ∧
    (InputBoxes.keypress ⟨[egB0, egB1, egB2], 1⟩ .Esc).1.boxes.map InputBox.get_content
      = ["buy bread".data, "rye bread".data, "errand, food".data] ∧
    (InputBoxes.keypress ⟨[egB0, egB1, egB2], 1⟩ .Esc).1.boxes.map InputBox.get_content
      ≠ [[], [], []] := by decide

/-- C4 (amended): for every field-form state, Esc produces no snapshot
and ends authoring (`(none, true)`), resets the focus index to 0 and
deactivates every box, but RETAINS all field contents (so that writing
can be resumed at the same state). -/
theorem cancel_keeps_contents (ib : InputBoxes) :
    ib.keypress .Esc = (ib.stop_writing, none, true) ∧
    (ib.stop_writing).index = 0 ∧
    (ib.stop_writing).boxes.map InputBox.get_content = ib.boxes.map InputBox.get_content ∧
    ∀ b ∈ (ib.stop_writing).boxes, b.is_writing = false := by
  refine ⟨rfl, rfl, ?_, ?_⟩
  · simp only [InputBoxes.stop_writing, List.map_map]
    exact List.map_congr_left fun a _ => rfl
  · intro b hb
    simp only [InputBoxes.stop_writing, List.mem_map] at hb
    obtain ⟨a, ha, rfl⟩ := hb
    rfl

/-- C5: decode is NOT total. A text whose first line is not the header
delimiter does yield the distinct `MissingHeader` error, but a header
line without the `": "` separator and a header that is never closed
both make the Rust code panic (`parts[1]` index out of bounds and
`unwrap` of an exhausted line iterator), modelled here as the `panic`
result, where the claim promises a `ParseError`. -/
theorem decode_panics :
    GooseberryEntry.from_file_string "body text".data = .err .MissingHeader ∧
    GooseberryEntry.from_file_string "---\nbad header line\n---\nbody".data = .panic ∧
    GooseberryEntry.from_file_string "---\nType: Task".data = .panic := by decide

/-- C6 counterexample: the spec's own scenario input, whose `DateTime`
value is written `Jan 01 2023 12:00:00 AM`, does not decode to a Task:
the codec's fixed `%v %r` timestamp format rejects it and decode
returns `ChronoParseError`. -/
theorem c6_counterexample :
    GooseberryEntry.from_file_string
      "---\nType: Task\nID: 3\nDateTime: Jan 01 2023 12:00:00 AM\nTags: x, y\nTask: buy milk\nDone: false\n---\nbuy 2% milk".data
      = .err (.ChronoParseError "Jan 01 2023 12:00:00 AM".data) := by decide

/-- C6 (amended): the same scenario with the `DateTime` value written
in the codec's fixed `%v %r` format (` 1-Jan-2023 12:00:00 AM`)
decodes to exactly the claimed Task: id 3, tags `x`,`y`, summary
`buy milk`, done false, body `buy 2% milk`. -/
theorem c6_amended :
    GooseberryEntry.from_file_string
      "---\nType: Task\nID: 3\nDateTime:  1-Jan-2023 12:00:00 AM\nTags: x, y\nTask: buy milk\nDone: false\n---\nbuy 2% milk".data
      = .ok (.Task ⟨3, "buy milk".data, "buy 2% milk".data, ⟨2023, 1, 1, 0, 0, 0, 0⟩,
          false, ["x".data, "y".data]⟩) := by decide

/-- A decimal digit character is none of the browsing-mode command
characters and passes the digit test. -/
theorem digitChar_tests {d : Nat} (hd : d < 10) :
    Char.ofNat (48 + d) ≠ 'n' ∧ Char.ofNat (48 + d) ≠ '\t' ∧
    ¬ (Char.ofNat (48 + d) = 't' ∨ Char.ofNat (48 + d) = 'e' ∨
        Char.ofNat (48 + d) = 'd') ∧
    (Char.ofNat (48 + d)).isDigit = true := by
  interval_cases d <;> exact ⟨by decide, by decide, by decide, by decide⟩

/-- C9: digit accumulation in the target picker. In browsing mode a
digit keystroke is ignored (the tab, including the accumulated id, is
returned unchanged) unless the picker is armed; while armed, the digit
`d` recomputes the accumulated id as ten times the previous value plus
`d` (decimal left-to-right accumulation), provided the new value still
fits in a `u64`. -/
theorem digit_accumulation (t : GooseberryTab) (now : DateTimeUtc) (d : Nat)
    (hd : d < 10) (hw : t.is_writing = false) :
    (t.picking_entry = false →
      t.keypress now (.Char (Char.ofNat (48 + d))) = some (t, [], none)) ∧
    (t.picking_entry = true → 10 * t.selected_entry + d < u64Size →
      t.keypress now (.Char (Char.ofNat (48 + d))) =
        some ({ t with selected_entry := 10 * t.selected_entry + d }, [], none)) := by
  obtain ⟨hn, htab, hted, hdig⟩ := digitChar_tests hd
  constructor
  · intro hpe
    simp only [GooseberryTab.keypress, hw, Bool.false_eq_true, if_false]
    rw [if_neg hn, if_neg htab, if_neg hted, if_pos hdig, if_neg (by simp [hpe])]
  · intro hpe hlt
    simp only [GooseberryTab.keypress, hw, Bool.false_eq_true, if_false]
    rw [if_neg hn, if_neg htab, if_neg hted, if_pos hdig, if_pos hpe]
    by_cases hs : t.selected_entry > 0
    · rw [if_pos hs, parseU64_append_digit hd hlt]
    · have h0 : t.selected_entry = 0 := by omega
      have hv : 10 * t.selected_entry + d = d := by omega
      rw [if_neg hs, parseU64_single_digit hd, hv]

/-- C10: an all-empty form is accepted. Saving a Task form whose boxes
are all empty produces a snapshot, builds a Task whose text fields are
empty and whose tags are the one-element list containing the empty
string (`"".split(',')`), inserts it at `next_id`, appends that id to
the visible ids, persists the entry, and increments `next_id` — no
validation rejects the empty form. -/
theorem empty_form_save (t : GooseberryTab) (now : DateTimeUtc)
    (hty : t.entry_type = .Task)
    (hw : t.is_writing = true)
    (hed : t.editing_entry = none)
    (hib : t.input_boxes = GooseberryEntryType.Task.get_input_boxes) :
    ∃ t2 : GooseberryTab,
      t.keypress now (.Ctrl 's') =
        some (t2, [.Write (GooseberryEntryType.file_name .Task t.next_id)
          (GooseberryEntry.Task ⟨t.next_id, [], [], now, false, [[]]⟩).to_file_string], none) ∧
      mapGet t2.entries t.next_id = some (.Task ⟨t.next_id, [], [], now, false, [[]]⟩) ∧
      t2.visible_ids = t.visible_ids ++ [t.next_id] ∧
      t2.next_id = t.next_id + 1 ∧
      t2.is_writing = false := by
  have hb : GooseberryEntryType.Task.get_input_boxes =
      ⟨[⟨"Task".data, true, [], false, 10, 0⟩, ⟨"Description".data, false, [], true, 60, 0⟩,
        ⟨"Tags".data, false, [], false, 10, 0⟩], 0⟩ := by decide
  rw [hb] at hib
  simp only [GooseberryTab.keypress, hw, if_true, InputBoxes.keypress, InputBoxes.save,
    hib, hed, Option.isSome_none, Bool.false_eq_true, if_false, GooseberryTab.add_entry,
    GooseberryEntry.from_input_boxes, hty, TaskEntry.from_input_boxes,
    GooseberryTab.save_entry, mapGet_insert_self]
  refine ⟨_, rfl, ?_, ?_, ?_, ?_⟩
  · exact mapGet_insert_self _ _ _
  · rfl
  · rfl
  · rfl


/-- Witness for C9 at the concrete armed tab `egTabPick`
(accumulated id 42, digit 7 giving 427). -/
theorem digit_accumulation_witness :
    (egTabPick.picking_entry = false →
      egTabPick.keypress egDT (.Char (Char.ofNat (48 + 7))) = some (egTabPick, [], none)) ∧
    (egTabPick.picking_entry = true →
      10 * egTabPick.selected_entry + 7 < u64Size →
      egTabPick.keypress egDT (.Char (Char.ofNat (48 + 7))) =
        some ({ egTabPick with
          selected_entry := 10 * egTabPick.selected_entry + 7 }, [], none)) :=
  digit_accumulation egTabPick egDT 7 (by decide) rfl

/-- A Task tab in writing mode on a brand-new entry with the pristine
(all-empty) Task form. -/
def egTabNew : GooseberryTab :=
  ⟨.Task, false, [(7, .Task egTask)], [7], true, GooseberryEntryType.Task.get_input_boxes,
   8, 0, none, false, 0, none⟩

/-- Witness for C10 at the concrete tab `egTabNew`: saving the empty
form creates the empty Task at id 8. -/
theorem empty_form_save_witness :
    ∃ t2 : GooseberryTab,
      egTabNew.keypress egDT (.Ctrl 's') =
        some (t2, [.Write (GooseberryEntryType.file_name .Task egTabNew.next_id)
          (GooseberryEntry.Task ⟨egTabNew.next_id, [], [], egDT, false,
            [[]]⟩).to_file_string], none) ∧
      mapGet t2.entries egTabNew.next_id
        = some (.Task ⟨egTabNew.next_id, [], [], egDT, false, [[]]⟩) ∧
      t2.visible_ids = egTabNew.visible_ids ++ [egTabNew.next_id] ∧
      t2.next_id = egTabNew.next_id + 1 ∧
      t2.is_writing = false :=
  empty_form_save egTabNew egDT rfl rfl rfl rfl

/-- C1 counterexample: a constructible Task with an EMPTY tag list does
not round-trip. Encoding writes `Tags: ` and decoding splits that empty
string into the one-element list containing the empty string, so the
decoded note differs from the original. -/
theorem round_trip_counterexample :
    GooseberryEntry.from_file_string
        (GooseberryEntry.Task ⟨3, "t".data, "d".data, egDT, false, []⟩).to_file_string
      = .ok (.Task ⟨3, "t".data, "d".data, egDT, false, [[]]⟩) ∧
    (GooseberryEntry.Task ⟨3, "t".data, "d".data, egDT, false, [[]]⟩)
      ≠ .Task ⟨3, "t".data, "d".data, egDT, false, []⟩ := by decide

/-- Witness for the amended C1 at the concrete well-formed task
`egTask`. -/
theorem decode_encode_witness :
    (GooseberryEntry.Task egTask).WellFormed ∧
    GooseberryEntry.from_file_string (GooseberryEntry.Task egTask).to_file_string
      = .ok (.Task egTask) :=
  by
  constructor
  · simp only [GooseberryEntry.WellFormed, WfCommon, WfField, WfTag, WfDateTime]
    decide
  · refine decode_encode _ ?_
    simp only [GooseberryEntry.WellFormed, WfCommon, WfField, WfTag, WfDateTime]
    decide

end Gooseberry
